import Mathlib

/-!
# SDL_Raytracer: the ray-tracing core of `src/cube.cpp` and `src/main.cpp`

A shallow embedding of `Cube::rayIntersect`, `castShadow` and `castRay`.

## Numbers

The C++ code computes with IEEE `float`.  The model `Flt` keeps the special
values that the control flow of the code depends on (`+inf`, `-inf`, `NaN`,
which `1.0f / rayDirection` and `0 * inf` produce) and replaces the finite
floats by exact rationals: rounding, overflow of finite values and the sign of
zero are not modelled.  Comparisons follow IEEE (every ordered comparison with
`NaN` is false, `NaN == NaN` is false).
-/

namespace Raytracer

/-! ## The number model -/

/-- A `float`: a finite value (exact rational), an infinity, or NaN. -/
inductive Flt where
  | fin (q : ℚ)
  | pinf
  | ninf
  | nan
deriving DecidableEq

namespace Flt

instance : Inhabited Flt := ⟨fin 0⟩
instance : Coe ℚ Flt := ⟨fin⟩
instance : OfNat Flt n := ⟨fin (n : ℚ)⟩

/-- Unary minus. -/
def neg : Flt → Flt
  | fin a => fin (-a)
  | pinf => ninf
  | ninf => pinf
  | nan => nan

/-- IEEE addition. -/
def add : Flt → Flt → Flt
  | nan, _ => nan
  | _, nan => nan
  | fin a, fin b => fin (a + b)
  | pinf, ninf => nan
  | ninf, pinf => nan
  | pinf, _ => pinf
  | ninf, _ => ninf
  | fin _, pinf => pinf
  | fin _, ninf => ninf

/-- IEEE subtraction. -/
def sub (a b : Flt) : Flt := add a (neg b)

/-- The product of an infinity of the given sign with a finite value. -/
def infTimes (positive : Bool) (a : ℚ) : Flt :=
  if a = 0 then nan
  else if 0 < a then (if positive then pinf else ninf)
  else (if positive then ninf else pinf)

/-- IEEE multiplication. -/
def mul : Flt → Flt → Flt
  | nan, _ => nan
  | _, nan => nan
  | fin a, fin b => fin (a * b)
  | fin a, pinf => infTimes true a
  | fin a, ninf => infTimes false a
  | pinf, fin b => infTimes true b
  | ninf, fin b => infTimes false b
  | pinf, pinf => pinf
  | ninf, ninf => pinf
  | pinf, ninf => ninf
  | ninf, pinf => ninf

/-- IEEE division (every zero is `+0`). -/
def div : Flt → Flt → Flt
  | nan, _ => nan
  | _, nan => nan
  | fin a, fin b =>
      if b = 0 then (if a = 0 then nan else if 0 < a then pinf else ninf)
      else fin (a / b)
  | fin _, pinf => fin 0
  | fin _, ninf => fin 0
  | pinf, fin b => if b < 0 then ninf else pinf
  | ninf, fin b => if b < 0 then pinf else ninf
  | pinf, pinf => nan
  | pinf, ninf => nan
  | ninf, pinf => nan
  | ninf, ninf => nan

/-- The C++ operator `<` on floats. -/
def lt : Flt → Flt → Bool
  | fin a, fin b => decide (a < b)
  | fin _, pinf => true
  | ninf, fin _ => true
  | ninf, pinf => true
  | _, _ => false

/-- The C++ operator `==` on floats. -/
def feq : Flt → Flt → Bool
  | fin a, fin b => decide (a = b)
  | pinf, pinf => true
  | ninf, ninf => true
  | _, _ => false

/-- The C++ operator `<=` on floats. -/
def le (a b : Flt) : Bool := lt a b || feq a b

instance : Neg Flt := ⟨neg⟩
instance : Add Flt := ⟨add⟩
instance : Sub Flt := ⟨sub⟩
instance : Mul Flt := ⟨mul⟩
instance : Div Flt := ⟨div⟩
instance : LT Flt := ⟨fun a b => lt a b = true⟩
instance : LE Flt := ⟨fun a b => le a b = true⟩
instance (a b : Flt) : Decidable (a < b) := inferInstanceAs (Decidable (lt a b = true))
instance (a b : Flt) : Decidable (a ≤ b) := inferInstanceAs (Decidable (le a b = true))

/-- GLM scalar `glm::min(x, y)`: `(y < x) ? y : x`. -/
def min (x y : Flt) : Flt := if y < x then y else x

/-- GLM scalar `glm::max(x, y)`: `(x < y) ? y : x`. -/
def max (x y : Flt) : Flt := if x < y then y else x

/-- GLM `glm::clamp(x, lo, hi)`: `min(max(x, lo), hi)`. -/
def clamp (x lo hi : Flt) : Flt := min (max x lo) hi

/-- GLM `glm::sign(x)`: `(0 < x) - (x < 0)`. -/
def sign (x : Flt) : Flt := if 0 < x then 1 else if x < 0 then -1 else 0

/-- The value is a finite number. -/
def isFinite : Flt → Bool
  | fin _ => true
  | _ => false

end Flt

/-! ## Vectors -/

/-- A `glm::vec3`. -/
structure Vec3 where
  x : Flt
  y : Flt
  z : Flt
deriving DecidableEq

namespace Vec3

/-- The constructor `glm::vec3(s)` from one scalar. -/
def splat (s : Flt) : Vec3 := ⟨s, s, s⟩

/-- Component-wise `glm::min`. -/
def min (a b : Vec3) : Vec3 := ⟨Flt.min a.x b.x, Flt.min a.y b.y, Flt.min a.z b.z⟩

/-- Component-wise `glm::max`. -/
def max (a b : Vec3) : Vec3 := ⟨Flt.max a.x b.x, Flt.max a.y b.y, Flt.max a.z b.z⟩

/-- Scalar times vector. -/
def smul (s : Flt) (v : Vec3) : Vec3 := ⟨s * v.x, s * v.y, s * v.z⟩

/-- Vector times scalar. -/
def scale (v : Vec3) (s : Flt) : Vec3 := ⟨v.x * s, v.y * s, v.z * s⟩

/-- Scalar divided by vector, component-wise (`1.0f / rayDirection`). -/
def rdiv (s : Flt) (v : Vec3) : Vec3 := ⟨s / v.x, s / v.y, s / v.z⟩

/-- GLM `glm::dot`. -/
def dot (a b : Vec3) : Flt := a.x * b.x + a.y * b.y + a.z * b.z

instance : Add Vec3 := ⟨fun a b => ⟨a.x + b.x, a.y + b.y, a.z + b.z⟩⟩
instance : Sub Vec3 := ⟨fun a b => ⟨a.x - b.x, a.y - b.y, a.z - b.z⟩⟩
instance : Mul Vec3 := ⟨fun a b => ⟨a.x * b.x, a.y * b.y, a.z * b.z⟩⟩
instance : Neg Vec3 := ⟨fun a => ⟨-a.x, -a.y, -a.z⟩⟩

/-- A vector of finite rationals. -/
def ofRat (x y z : ℚ) : Vec3 := ⟨Flt.fin x, Flt.fin y, Flt.fin z⟩

end Vec3

/-! ## Intersection results and the box primitive (`cube.cpp`) -/

/-- The struct `Intersect` (declared in `intersect.h`): the fields in the order
of the aggregate `Intersect{true, t, hitPoint, normal}`. -/
structure Intersect where
  isIntersecting : Bool
  dist : Flt
  point : Vec3
  normal : Vec3
deriving DecidableEq

/-- Modelled from the spec: `intersect.h` is not part of the sources.  A
default-constructed `Intersect`, and the aggregate `Intersect{false}`, is the
outcome "no hit" of the spec's data model, its other members zero. -/
def Intersect.noHit : Intersect := ⟨false, 0, Vec3.splat 0, Vec3.splat 0⟩

/-- The data members of `Cube`. -/
structure Cube where
  center : Vec3
  size : Flt
deriving DecidableEq

namespace Cube

/-- The vector `minBounds` of `Cube::rayIntersect`. -/
def minBounds (c : Cube) : Vec3 := c.center - Vec3.splat (c.size / 2)

/-- The vector `maxBounds` of `Cube::rayIntersect`. -/
def maxBounds (c : Cube) : Vec3 := c.center + Vec3.splat (c.size / 2)

/-- The vector `tMin` of `Cube::rayIntersect`: per-axis entry distances. -/
def tMin (c : Cube) (rayOrigin rayDirection : Vec3) : Vec3 :=
  let invDir := Vec3.rdiv 1 rayDirection
  let t1 := (c.minBounds - rayOrigin) * invDir
  let t2 := (c.maxBounds - rayOrigin) * invDir
  Vec3.min t1 t2

/-- The vector `tMax` of `Cube::rayIntersect`: per-axis exit distances. -/
def tMax (c : Cube) (rayOrigin rayDirection : Vec3) : Vec3 :=
  let invDir := Vec3.rdiv 1 rayDirection
  let t1 := (c.minBounds - rayOrigin) * invDir
  let t2 := (c.maxBounds - rayOrigin) * invDir
  Vec3.max t1 t2

/-- The scalar `tEnter` of `Cube::rayIntersect`. -/
def tEnter (c : Cube) (rayOrigin rayDirection : Vec3) : Flt :=
  let tMin := c.tMin rayOrigin rayDirection
  Flt.max (Flt.max tMin.x tMin.y) tMin.z

/-- The scalar `tExit` of `Cube::rayIntersect`. -/
def tExit (c : Cube) (rayOrigin rayDirection : Vec3) : Flt :=
  let tMax := c.tMax rayOrigin rayDirection
  Flt.min (Flt.min tMax.x tMax.y) tMax.z

/-- The normal selection at the end of `Cube::rayIntersect` (lines 35-44). -/
def selectNormal (t : Flt) (tMin rayDirection : Vec3) : Vec3 :=
  if Flt.feq t tMin.x then Vec3.smul (-Flt.sign rayDirection.x) ⟨1, 0, 0⟩
  else if Flt.feq t tMin.y then Vec3.smul (-Flt.sign rayDirection.y) ⟨0, 1, 0⟩
  else if Flt.feq t tMin.z then Vec3.smul (-Flt.sign rayDirection.z) ⟨0, 0, 1⟩
  else Vec3.splat 0

/-- The method `Cube::rayIntersect` (`cube.cpp`, lines 8-47). -/
def rayIntersect (c : Cube) (rayOrigin rayDirection : Vec3) : Intersect :=
  let tMin := c.tMin rayOrigin rayDirection
  let tEnter := c.tEnter rayOrigin rayDirection
  let tExit := c.tExit rayOrigin rayDirection
  if tEnter > tExit ∨ tExit < 0 then Intersect.noHit
  else
    let t := tEnter
    if t < 0 then
      let t := tExit
      if t < 0 then Intersect.noHit
      else
        ⟨true, t, rayOrigin + Vec3.smul t rayDirection, selectNormal t tMin rayDirection⟩
    else
      ⟨true, t, rayOrigin + Vec3.smul t rayDirection, selectNormal t tMin rayDirection⟩

end Cube

/-! ## Colours, materials, the light, scene objects (`main.cpp`) -/

/-- Modelled from the spec: `color.h` is not part of the sources.  A `Color` is
a triple of channel intensities, unclamped internally, with component-wise
addition and multiplication by a scalar (spec, section 3). -/
structure Color where
  r : Flt
  g : Flt
  b : Flt
deriving DecidableEq

namespace Color

instance : Add Color := ⟨fun a b => ⟨a.r + b.r, a.g + b.g, a.b + b.b⟩⟩

/-- The operator `Color * float`. -/
def scale (c : Color) (s : Flt) : Color := ⟨c.r * s, c.g * s, c.b * s⟩

/-- The colour `Color(0.0f, 0.0f, 0.0f)`. -/
def black : Color := ⟨0, 0, 0⟩

end Color

/-- The struct `Material`, its members in the order of the initialisers of
`setUp` (`material.h` is not part of the sources). -/
structure Material where
  diffuse : Color
  albedo : Flt
  specularAlbedo : Flt
  specularCoefficient : Flt
  reflectivity : Flt
  transparency : Flt
  refractionIndex : Flt
deriving DecidableEq

/-- The class `Light`: position, intensity, colour. -/
structure Light where
  position : Vec3
  intensity : Flt
  color : Color
deriving DecidableEq

/-- The global `light` of `main.cpp`, line 28. -/
def light : Light := ⟨Vec3.ofRat 4 5 0, 100, ⟨253, 158, 0⟩⟩

/-- The constant `MAX_RECURSION` of `main.cpp`, line 23. -/
def MAX_RECURSION : Int := 5

/-- The constant `BIAS` of `main.cpp`, line 24. -/
def BIAS : Flt := Flt.fin (1 / 10000)

/-- The background colour returned by `castRay`, line 75. -/
def backgroundColor : Color := ⟨127, 169, 255⟩

/-- The initial value of `zBuffer` in `castRay`, line 58. -/
def zBufferInit : Flt := 99999

/-- The default argument `shadowSoftness = 0.5f` of `castShadow`. -/
def defaultShadowSoftness : Flt := Flt.fin (1 / 2)

/-- The constant `ambientStrength = 0.4f` of `castRay`, line 89. -/
def ambientStrength : Flt := Flt.fin (2 / 5)

/-- An `Object *` of the scene: the address it points to, the virtual method
`rayIntersect` of the object there, and its member `material`. -/
structure Object where
  addr : Nat
  rayIntersect : Vec3 → Vec3 → Intersect
  material : Material

/-- The object `new Cube(center, size, mat)` stored at address `addr`. -/
def Cube.toObject (addr : Nat) (c : Cube) (mat : Material) : Object :=
  ⟨addr, c.rayIntersect, mat⟩

/-- The pointer comparison `obj != hitObject`; `none` is `nullptr`. -/
def Object.differsFrom (obj : Object) (hitObject : Option Object) : Bool :=
  match hitObject with
  | none => true
  | some h => decide (obj.addr ≠ h.addr)

/-- The functions of the C math library that exact arithmetic cannot compute;
they are parameters of the model. -/
structure Libm where
  sqrt : Flt → Flt
  pow : Flt → Flt → Flt

/-- GLM `glm::normalize(v)`: `v * inversesqrt(dot(v, v))`, where
`inversesqrt(x)` is `1 / sqrt(x)`. -/
def normalize (env : Libm) (v : Vec3) : Vec3 := v.scale (1 / env.sqrt (Vec3.dot v v))

/-- GLM `glm::reflect(I, N)`: `I - N * dot(N, I) * 2`. -/
def reflect (I N : Vec3) : Vec3 := I - (N.scale (Vec3.dot N I)).scale 2

/-- GLM `glm::refract(I, N, eta)`. -/
def refract (env : Libm) (I N : Vec3) (eta : Flt) : Vec3 :=
  let dotValue := Vec3.dot N I
  let k := 1 - eta * eta * (1 - dotValue * dotValue)
  if 0 ≤ k then Vec3.smul eta I - Vec3.smul (eta * dotValue + env.sqrt k) N
  else Vec3.splat 0

/-! ## `castShadow` (`main.cpp`, lines 36-54) -/

/-- One iteration of the loop of `castShadow`. -/
def castShadowStep (shadowOrigin lightDir : Vec3) (hitObject : Option Object)
    (shadowSoftness : Flt) (shadowIntensity : Flt) (obj : Object) : Flt :=
  if obj.differsFrom hitObject then
    let shadowIntersect := obj.rayIntersect shadowOrigin lightDir
    if shadowIntersect.isIntersecting = true ∧ shadowIntersect.dist > 0 then
      let shadowFactor := Flt.clamp (shadowIntersect.dist * shadowSoftness) 0 1
      Flt.min shadowIntensity shadowFactor
    else shadowIntensity
  else shadowIntensity

/-- The function `castShadow`: the loop over the global `objects`, starting
from `shadowIntensity = 1`. -/
def castShadow (objects : List Object) (shadowOrigin lightDir : Vec3)
    (hitObject : Option Object) (shadowSoftness : Flt) : Flt :=
  objects.foldl (castShadowStep shadowOrigin lightDir hitObject shadowSoftness) 1

/-! ## `castRay` (`main.cpp`, lines 56-123) -/

/-- The three locals that the scan of `castRay` updates together. -/
structure Scan where
  zBuffer : Flt
  hitObject : Option Object
  intersect : Intersect

/-- One iteration of the scan loop of `castRay` (lines 62-71). -/
def scanStep (rayOrigin rayDirection : Vec3) (st : Scan) (object : Object) : Scan :=
  let i := object.rayIntersect rayOrigin rayDirection
  if i.isIntersecting = true ∧ i.dist < st.zBuffer then ⟨i.dist, some object, i⟩
  else st

/-- The scan of `castRay` over the global `objects` (lines 58-71). -/
def scan (objects : List Object) (rayOrigin rayDirection : Vec3) : Scan :=
  objects.foldl (scanStep rayOrigin rayDirection) ⟨zBufferInit, none, Intersect.noHit⟩

/-- The local `lightDir` of `castRay` (line 78). -/
def lightDirOf (env : Libm) (intersect : Intersect) : Vec3 :=
  normalize env (light.position - intersect.point)

/-- The local `shadowIntensity` of `castRay` (line 82). -/
def shadowIntensityOf (env : Libm) (objects : List Object) (intersect : Intersect)
    (hitObject : Option Object) : Flt :=
  castShadow objects (intersect.point + intersect.normal.scale BIAS) (lightDirOf env intersect)
    hitObject defaultShadowSoftness

/-- The local `ambientLight` of `castRay` (line 90). -/
def ambientLight (mat : Material) : Color := mat.diffuse.scale ambientStrength

/-- The local `diffuseLight` of `castRay` (lines 93-94). -/
def diffuseLight (env : Libm) (objects : List Object) (intersect : Intersect)
    (hitObject : Option Object) (mat : Material) : Color :=
  let lightDir := lightDirOf env intersect
  let shadowIntensity := shadowIntensityOf env objects intersect hitObject
  let diffuseIntensity := Flt.max 0 (Vec3.dot intersect.normal lightDir) * shadowIntensity
  ((mat.diffuse.scale light.intensity).scale diffuseIntensity).scale mat.albedo

/-- The local `specularLight` of `castRay` (lines 97-100). -/
def specularLight (env : Libm) (rayOrigin : Vec3) (intersect : Intersect) (mat : Material) :
    Color :=
  let lightDir := lightDirOf env intersect
  let viewDir := normalize env (rayOrigin - intersect.point)
  let reflectDir := reflect (-lightDir) intersect.normal
  let specReflection := Vec3.dot viewDir reflectDir
  let specLightIntensity := env.pow (Flt.max 0 specReflection) mat.specularCoefficient
  ((light.color.scale light.intensity).scale specLightIntensity).scale mat.specularAlbedo

/-- The function `castRay`.  The parameter `recursion` is a `short`; the sum
`recursion + 1` is only formed below `MAX_RECURSION`, so it never overflows. -/
def castRay (env : Libm) (objects : List Object) (rayOrigin rayDirection : Vec3)
    (recursion : Int) : Color :=
  let st := scan objects rayOrigin rayDirection
  let intersect := st.intersect
  if intersect.isIntersecting = false ∨ recursion = MAX_RECURSION then backgroundColor
  else
    match st.hitObject with
    | none => backgroundColor -- not reached: the scan sets both locals together
    | some hitObject =>
      let mat := hitObject.material
      let reflectedColor :=
        if _h : mat.reflectivity > 0 ∧ recursion < MAX_RECURSION then
          (castRay env objects (intersect.point + intersect.normal.scale BIAS)
            (reflect rayDirection intersect.normal) (recursion + 1)).scale mat.reflectivity
        else Color.black
      let refractedColor :=
        if _h : mat.transparency > 0 ∧ recursion < MAX_RECURSION then
          (castRay env objects (intersect.point - intersect.normal.scale BIAS)
            (refract env rayDirection intersect.normal mat.refractionIndex)
            (recursion + 1)).scale mat.transparency
        else Color.black
      ambientLight mat + diffuseLight env objects intersect (some hitObject) mat
        + specularLight env rayOrigin intersect mat + reflectedColor + refractedColor
termination_by (MAX_RECURSION - recursion).toNat
decreasing_by
  all_goals (simp only [MAX_RECURSION] at *; omega)

/-- The call tree of `castRay` run with a bound on the nesting of calls: `none`
when the bound is exhausted, otherwise the colour together with the `recursion`
argument of every recursive invocation made, in call order. -/
def castRayFuel (env : Libm) (objects : List Object) :
    Nat → Vec3 → Vec3 → Int → Option (Color × List Int)
  | 0, _, _, _ => none
  | fuel + 1, rayOrigin, rayDirection, recursion =>
    let st := scan objects rayOrigin rayDirection
    let intersect := st.intersect
    if intersect.isIntersecting = false ∨ recursion = MAX_RECURSION then
      some (backgroundColor, [])
    else
      match st.hitObject with
      | none => some (backgroundColor, [])
      | some hitObject =>
        let mat := hitObject.material
        let reflected : Option (Color × List Int) :=
          if mat.reflectivity > 0 ∧ recursion < MAX_RECURSION then
            (castRayFuel env objects fuel (intersect.point + intersect.normal.scale BIAS)
              (reflect rayDirection intersect.normal) (recursion + 1)).map
              (fun r => (r.1.scale mat.reflectivity, (recursion + 1) :: r.2))
          else some (Color.black, [])
        let refracted : Option (Color × List Int) :=
          if mat.transparency > 0 ∧ recursion < MAX_RECURSION then
            (castRayFuel env objects fuel (intersect.point - intersect.normal.scale BIAS)
              (refract env rayDirection intersect.normal mat.refractionIndex)
              (recursion + 1)).map
              (fun r => (r.1.scale mat.transparency, (recursion + 1) :: r.2))
          else some (Color.black, [])
        match reflected, refracted with
        | some a, some b =>
          some (ambientLight mat + diffuseLight env objects intersect (some hitObject) mat
            + specularLight env rayOrigin intersect mat + a.1 + b.1, a.2 ++ b.2)
        | _, _ => none

/-! ## Concrete inputs on which the model is exercised -/

/-- A stand-in for the C math library, exact where the exact result is a
rational that is computed here: the square root of a square of a rational and
a power with a natural exponent. -/
def exactLibm : Libm where
  sqrt := fun x =>
    match x with
    | Flt.fin q => if q < 0 then Flt.nan else Flt.fin (Rat.sqrt q)
    | Flt.pinf => Flt.pinf
    | _ => Flt.nan
  pow := fun b e =>
    match b, e with
    | Flt.fin a, Flt.fin k => if k.den = 1 ∧ 0 ≤ k.num then Flt.fin (a ^ k.num.toNat) else Flt.nan
    | _, _ => Flt.nan

/-- The material `grass` of `setUp`. -/
def grass : Material :=
  ⟨⟨0, 230, 0⟩, Flt.fin (1 / 5), Flt.fin (1 / 5), 0, 0, 0, 1⟩

/-- The material `water` of `setUp`: reflective and transparent. -/
def water : Material :=
  ⟨⟨173, 216, 230⟩, Flt.fin (1 / 10), Flt.fin (1 / 2), 10, Flt.fin (1 / 2), Flt.fin (1 / 10),
    Flt.fin (133 / 100)⟩

/-- The box of edge 2 centred at the origin. -/
def originCube : Cube := ⟨Vec3.ofRat 0 0 0, 2⟩

/-- A scene holding the single box `originCube`, of material `grass`. -/
def grassScene : List Object := [originCube.toObject 1 grass]

/-- Two boxes of material `water` facing each other along the x axis. -/
def mirrorScene : List Object :=
  [Cube.toObject 1 ⟨Vec3.ofRat (-3) 0 0, 2⟩ water, Cube.toObject 2 ⟨Vec3.ofRat 3 0 0, 2⟩ water]

/-- The box `originCube` followed by a box of edge 2 centred at `(-1, 0, 10)`. -/
def grazeScene : List Object :=
  [originCube.toObject 1 grass, Cube.toObject 2 ⟨Vec3.ofRat (-1) 0 10, 2⟩ grass]

/-- A box of edge 2 centred at `(3, 0, 0)`, followed by two boxes of edge 2 at
the same place, centred at `(-3, 0, 0)`, stored at different addresses. -/
def tieScene : List Object :=
  [Cube.toObject 1 ⟨Vec3.ofRat 3 0 0, 2⟩ grass, Cube.toObject 2 ⟨Vec3.ofRat (-3) 0 0, 2⟩ grass,
    Cube.toObject 3 ⟨Vec3.ofRat (-3) 0 0, 2⟩ water]

/-- A single box of edge 2 centred at `(0, 0, 100001)`. -/
def farScene : List Object := [Cube.toObject 1 ⟨Vec3.ofRat 0 0 100001, 2⟩ grass]

/-- A box of edge 1 whose top face `y = 4` lies one unit below the light,
followed by a box of edge 1/2 above the light, between `y = 21/4` and
`y = 23/4`. -/
def beyondLightScene : List Object :=
  [Cube.toObject 1 ⟨Vec3.ofRat 4 (7 / 2) 0, 1⟩ grass,
    Cube.toObject 2 ⟨Vec3.ofRat 4 (11 / 2) 0, Flt.fin (1 / 2)⟩ grass]

/-! ## The spec's words for the shadow estimator -/

/-- The spec's words: the per-occluder attenuation factors
`clamp(distance × softness, 0, 1)` of the scene objects other than the hit
object whose `rayIntersect` on the shadow ray reports an intersection with
positive distance. -/
def specShadowFactors (objects : List Object) (shadowOrigin lightDir : Vec3)
    (hitObject : Option Object) (shadowSoftness : Flt) : List Flt :=
  (objects.filter (fun obj => obj.differsFrom hitObject
      && (obj.rayIntersect shadowOrigin lightDir).isIntersecting
      && decide ((obj.rayIntersect shadowOrigin lightDir).dist > 0))).map
    (fun obj => Flt.clamp ((obj.rayIntersect shadowOrigin lightDir).dist * shadowSoftness) 0 1)

/-- The spec's words: the object meets the shadow ray between its origin and
the light, that is at a positive distance smaller than the distance from the
shadow origin to `light.position`; the shadow direction being of unit length,
the two distances are compared by their squares. -/
def liesBeforeLight (obj : Object) (shadowOrigin lightDir : Vec3) : Prop :=
  (obj.rayIntersect shadowOrigin lightDir).isIntersecting = true ∧
    (obj.rayIntersect shadowOrigin lightDir).dist > 0 ∧
    (obj.rayIntersect shadowOrigin lightDir).dist * (obj.rayIntersect shadowOrigin lightDir).dist
      < Vec3.dot (light.position - shadowOrigin) (light.position - shadowOrigin)

instance (obj : Object) (shadowOrigin lightDir : Vec3) :
    Decidable (liesBeforeLight obj shadowOrigin lightDir) := by
  unfold liesBeforeLight; infer_instance

/-! ## The spec's words for the box test -/

/-- The spec's words: the point `(x, y, z)` lies in the closed box
`[center − size/2, center + size/2]^3`. -/
def inBox (cx cy cz s x y z : ℚ) : Prop :=
  (cx - s / 2 ≤ x ∧ x ≤ cx + s / 2) ∧ (cy - s / 2 ≤ y ∧ y ≤ cy + s / 2) ∧
    (cz - s / 2 ≤ z ∧ z ≤ cz + s / 2)

/-- The spec's words: the point lies on the boundary of the closed box: in the
box, and on one of its six face planes. -/
def onBoundary (cx cy cz s x y z : ℚ) : Prop :=
  inBox cx cy cz s x y z ∧
    (x = cx - s / 2 ∨ x = cx + s / 2 ∨ y = cy - s / 2 ∨ y = cy + s / 2 ∨
      z = cz - s / 2 ∨ z = cz + s / 2)

/-- The spec's words: the origin lies strictly outside the closed box. -/
def strictlyOutside (cx cy cz s x y z : ℚ) : Prop :=
  (x < cx - s / 2 ∨ cx + s / 2 < x) ∨ (y < cy - s / 2 ∨ cy + s / 2 < y) ∨
    (z < cz - s / 2 ∨ cz + s / 2 < z)

/-- The six unit axis vectors. -/
def unitAxes : List Vec3 :=
  [Vec3.ofRat 1 0 0, Vec3.ofRat (-1) 0 0, Vec3.ofRat 0 1 0, Vec3.ofRat 0 (-1) 0,
    Vec3.ofRat 0 0 1, Vec3.ofRat 0 0 (-1)]

/-- The sign of a rational direction component. -/
def ratSign (q : ℚ) : ℚ := if 0 < q then 1 else if q < 0 then -1 else 0

/-- The box with rational centre and edge. -/
def Cube.ofRat (cx cy cz s : ℚ) : Cube := ⟨Vec3.ofRat cx cy cz, Flt.fin s⟩

/-- One component of `tMin`: the entry distance of one axis, from the slab
bounds `lo`, `hi` and the origin and direction components. -/
def slabMin (lo hi o d : Flt) : Flt := Flt.min ((lo - o) * (1 / d)) ((hi - o) * (1 / d))

/-- One component of `tMax`: the exit distance of one axis. -/
def slabMax (lo hi o d : Flt) : Flt := Flt.max ((lo - o) * (1 / d)) ((hi - o) * (1 / d))

/-! ## Facts about the number model -/

namespace Flt

theorem ofNat_eq_fin (n : Nat) : (OfNat.ofNat n : Flt) = fin (n : ℚ) := rfl

@[simp] theorem zero_eq : (0 : Flt) = fin 0 := by
  rw [ofNat_eq_fin]; simp

@[simp] theorem one_eq : (1 : Flt) = fin 1 := by
  rw [ofNat_eq_fin]; simp

@[simp] theorem two_eq : (2 : Flt) = fin 2 := by
  rw [ofNat_eq_fin]; simp

@[simp] theorem neg_fin (a : ℚ) : -(fin a) = fin (-a) := rfl

@[simp] theorem fin_add_fin (a b : ℚ) : fin a + fin b = fin (a + b) := rfl

@[simp] theorem fin_sub_fin (a b : ℚ) : fin a - fin b = fin (a - b) := by
  show add (fin a) (neg (fin b)) = fin (a - b)
  simp [add, neg, sub_eq_add_neg]

@[simp] theorem fin_mul_fin (a b : ℚ) : fin a * fin b = fin (a * b) := rfl

theorem fin_div_fin (a b : ℚ) (hb : b ≠ 0) : fin a / fin b = fin (a / b) := by
  show div (fin a) (fin b) = fin (a / b)
  simp [div, hb]

@[simp] theorem one_div_zero : fin 1 / fin 0 = pinf := by
  show div (fin 1) (fin 0) = pinf
  simp [div]

@[simp] theorem fin_mul_pinf (a : ℚ) : fin a * pinf = infTimes true a := rfl

@[simp] theorem fin_lt_fin (a b : ℚ) : (fin a < fin b) ↔ a < b := by
  show lt (fin a) (fin b) = true ↔ a < b
  simp [lt]

@[simp] theorem feq_fin_fin (a b : ℚ) : feq (fin a) (fin b) = true ↔ a = b := by
  simp [feq]

@[simp] theorem fin_le_fin (a b : ℚ) : (fin a ≤ fin b) ↔ a ≤ b := by
  show le (fin a) (fin b) = true ↔ a ≤ b
  simp [le, lt, feq, le_iff_lt_or_eq]

theorem lt_def (a b : Flt) : (a < b) ↔ lt a b = true := Iff.rfl

theorem le_def (a b : Flt) : (a ≤ b) ↔ le a b = true := Iff.rfl

theorem lt_irr (a : Flt) : ¬ (a < a) := by
  cases a <;> simp [lt_def, lt]

theorem lt_tr {a b c : Flt} (h1 : a < b) (h2 : b < c) : a < c := by
  cases a <;> cases b <;> cases c <;> simp_all [lt_def, lt]
  exact lt_trans h1 h2

theorem lt_of_feq_of_lt {a b c : Flt} (h1 : feq a b = true) (h2 : b < c) : a < c := by
  cases a <;> cases b <;> cases c <;> simp_all [lt_def, lt, feq]

theorem lt_ne_nan_left {a b : Flt} (h : a < b) : a ≠ nan := by
  cases a <;> simp_all [lt_def, lt]

theorem lt_ne_nan_right {a b : Flt} (h : a < b) : b ≠ nan := by
  cases a <;> cases b <;> simp_all [lt_def, lt]

theorem le_of_not_lt {a b : Flt} (ha : a ≠ nan) (hb : b ≠ nan) (h : ¬ (b < a)) : a ≤ b := by
  cases a <;> cases b <;> simp_all [lt_def, le_def, lt, le, feq]
  exact le_iff_lt_or_eq.mp h

theorem not_lt_of_le {a b : Flt} (h : a ≤ b) : ¬ (b < a) := by
  cases a <;> cases b <;> simp_all [lt_def, le_def, lt, le, feq]
  rcases h with h | h
  · exact le_of_lt h
  · exact le_of_eq h

end Flt

/-! ## The scan of `castRay` -/

theorem scan_append (objects : List Object) (a : Object) (o d : Vec3) :
    scan (objects ++ [a]) o d = scanStep o d (scan objects o d) a := by
  simp [scan, List.foldl_append]

/-- What the scan has computed after the whole list: either nothing was
selected, or the selected object is the first one at the least distance. -/
theorem scan_spec (objects : List Object) (o d : Vec3) :
    ((scan objects o d).hitObject = none ∧ (scan objects o d).intersect = Intersect.noHit ∧
      (scan objects o d).zBuffer = zBufferInit ∧
      ∀ obj ∈ objects, (obj.rayIntersect o d).isIntersecting = true →
        ¬ ((obj.rayIntersect o d).dist < zBufferInit)) ∨
    (∃ (k : Nat) (h : Object), objects[k]? = some h ∧ (scan objects o d).hitObject = some h ∧
      (scan objects o d).intersect = h.rayIntersect o d ∧
      (scan objects o d).zBuffer = (h.rayIntersect o d).dist ∧
      (h.rayIntersect o d).isIntersecting = true ∧
      (h.rayIntersect o d).dist < zBufferInit ∧
      (∀ obj ∈ objects, (obj.rayIntersect o d).isIntersecting = true →
        ¬ ((obj.rayIntersect o d).dist < (h.rayIntersect o d).dist)) ∧
      (∀ (j : Nat) (obj : Object), j < k → objects[j]? = some obj → (obj.rayIntersect o d).isIntersecting = true →
        Flt.feq (obj.rayIntersect o d).dist (h.rayIntersect o d).dist = false)) := by
  induction objects using List.reverseRecOn with
  | nil => left; simp [scan]
  | append_singleton l a ih =>
    rw [scan_append]
    by_cases hsel : (a.rayIntersect o d).isIntersecting = true ∧
        (a.rayIntersect o d).dist < (scan l o d).zBuffer
    · -- the new object is selected
      right
      refine ⟨l.length, a, by simp, ?_⟩
      have hstep : scanStep o d (scan l o d) a =
          ⟨(a.rayIntersect o d).dist, some a, a.rayIntersect o d⟩ := by
        simp only [scanStep, hsel, and_self, if_true]
      rw [hstep]
      refine ⟨rfl, rfl, rfl, hsel.1, ?_⟩
      rcases ih with ⟨_, _, hz, hall⟩ | ⟨k, h, hk, _, _, hz, hi, hlt, hall, _⟩
      · rw [hz] at hsel
        refine ⟨hsel.2, ?_, ?_⟩
        · intro obj hobj hint hlt
          rcases List.mem_append.mp hobj with hmem | hmem
          · exact hall obj hmem hint (Flt.lt_tr hlt hsel.2)
          · simp only [List.mem_singleton] at hmem
            subst hmem
            exact Flt.lt_irr _ hlt
        · intro j obj hj hget hint
          have hmem : obj ∈ l := by
            rw [List.getElem?_append_left hj] at hget
            exact List.getElem?_mem hget
          by_contra hfeq
          simp only [Bool.not_eq_false] at hfeq
          exact hall obj hmem hint (Flt.lt_of_feq_of_lt hfeq hsel.2)
      · rw [hz] at hsel
        refine ⟨Flt.lt_tr hsel.2 hlt, ?_, ?_⟩
        · intro obj hobj hint hlt2
          rcases List.mem_append.mp hobj with hmem | hmem
          · exact hall obj hmem hint (Flt.lt_tr hlt2 hsel.2)
          · simp only [List.mem_singleton] at hmem
            subst hmem
            exact Flt.lt_irr _ hlt2
        · intro j obj hj hget hint
          have hmem : obj ∈ l := by
            rw [List.getElem?_append_left hj] at hget
            exact List.getElem?_mem hget
          by_contra hfeq
          simp only [Bool.not_eq_false] at hfeq
          exact hall obj hmem hint (Flt.lt_of_feq_of_lt hfeq hsel.2)
    · -- the new object is not selected
      have hstep : scanStep o d (scan l o d) a = scan l o d := by
        simp only [scanStep, hsel, if_false]
      rw [hstep]
      rcases ih with ⟨hh, hi, hz, hall⟩ | ⟨k, h, hk, hh, hi, hz, hint, hlt, hall, hfirst⟩
      · left
        refine ⟨hh, hi, hz, ?_⟩
        intro obj hobj hint
        rcases List.mem_append.mp hobj with hmem | hmem
        · exact hall obj hmem hint
        · simp only [List.mem_singleton] at hmem
          subst hmem
          intro hlt
          exact hsel ⟨hint, hz ▸ hlt⟩
      · right
        have hkl : k < l.length := by
          by_contra hge
          rw [List.getElem?_eq_none (by omega)] at hk
          exact Option.noConfusion hk
        refine ⟨k, h, ?_, hh, hi, hz, hint, hlt, ?_, ?_⟩
        · rw [List.getElem?_append_left hkl]; exact hk
        · intro obj hobj hint2
          rcases List.mem_append.mp hobj with hmem | hmem
          · exact hall obj hmem hint2
          · simp only [List.mem_singleton] at hmem
            subst hmem
            intro hlt2
            exact hsel ⟨hint2, hz ▸ hlt2⟩
        · intro j obj hj hget hint2
          rw [List.getElem?_append_left (by omega)] at hget
          exact hfirst j obj hj hget hint2

/-! ## `castRay`: background, termination, nearest hit -/

theorem castRay_of_noHit (env : Libm) (objects : List Object) (o d : Vec3) (recursion : Int)
    (h : (scan objects o d).intersect.isIntersecting = false ∨ recursion = MAX_RECURSION) :
    castRay env objects o d recursion = backgroundColor := by
  rw [castRay]
  simp only [h, if_true]

theorem scan_hit_iff_exists (objects : List Object) (o d : Vec3) :
    (scan objects o d).intersect.isIntersecting = true ↔
      ∃ obj ∈ objects, (obj.rayIntersect o d).isIntersecting = true ∧
        (obj.rayIntersect o d).dist < zBufferInit := by
  rcases scan_spec objects o d with ⟨_, hi, _, hall⟩ | ⟨k, h, hk, _, hi, _, hint, hlt, _, _⟩
  · rw [hi]
    constructor
    · intro hfalse
      simp [Intersect.noHit] at hfalse
    · rintro ⟨obj, hobj, hint, hlt⟩
      exact absurd hlt (hall obj hobj hint)
  · rw [hi]
    constructor
    · intro _
      exact ⟨h, List.getElem?_mem hk, hint, hlt⟩
    · intro _
      exact hint

theorem scan_hitObject_iff (objects : List Object) (o d : Vec3) :
    (scan objects o d).hitObject.isSome = true ↔
      (scan objects o d).intersect.isIntersecting = true := by
  rcases scan_spec objects o d with ⟨hh, hi, _, _⟩ | ⟨k, h, _, hh, hi, _, hint, _, _, _⟩
  · rw [hh, hi]; simp [Intersect.noHit]
  · rw [hh, hi]; simp [hint]

/-- C1: `castRay` returns exactly the background colour `Color(127, 169, 255)`
whenever no scene object intersects the ray, and also whenever the depth
equals `MAX_RECURSION`, even if an object is hit. -/
theorem castRay_background (env : Libm) (objects : List Object) (o d : Vec3) (recursion : Int)
    (h : (∀ obj ∈ objects, (obj.rayIntersect o d).isIntersecting = false) ∨
      recursion = MAX_RECURSION) :
    castRay env objects o d recursion = backgroundColor ∧
      backgroundColor = ⟨127, 169, 255⟩ ∧ MAX_RECURSION = 5 := by
  refine ⟨castRay_of_noHit env objects o d recursion ?_, rfl, rfl⟩
  rcases h with h | h
  · left
    by_contra hc
    simp only [Bool.not_eq_false] at hc
    obtain ⟨obj, hobj, hint, _⟩ := (scan_hit_iff_exists objects o d).mp hc
    rw [h obj hobj] at hint
    exact Bool.noConfusion hint
  · right; exact h

theorem castRay_background_witness :
    (castRay exactLibm grassScene (Vec3.ofRat 0 0 (-5)) (Vec3.ofRat 0 0 (-1)) 0
        = backgroundColor ∧ backgroundColor = ⟨127, 169, 255⟩ ∧ MAX_RECURSION = 5) ∧
      ((originCube.rayIntersect (Vec3.ofRat 0 0 (-5)) (Vec3.ofRat 0 0 1)).isIntersecting = true ∧
        castRay exactLibm grassScene (Vec3.ofRat 0 0 (-5)) (Vec3.ofRat 0 0 1) 5
          = backgroundColor) :=
  ⟨castRay_background exactLibm grassScene (Vec3.ofRat 0 0 (-5)) (Vec3.ofRat 0 0 (-1)) 0
      (Or.inl (by
        intro obj hobj
        simp only [grassScene, List.mem_singleton] at hobj
        subst hobj
        decide!)),
    by decide!,
    (castRay_background exactLibm grassScene (Vec3.ofRat 0 0 (-5)) (Vec3.ofRat 0 0 1) 5
      (Or.inr rfl)).1⟩

/-- C2: `castRay` terminates for every scene and every material configuration:
run with a bound on the nesting of calls larger than `MAX_RECURSION - depth` it
returns the value of the function defined by well-founded recursion on
`MAX_RECURSION - depth`; every recursive invocation it makes has a depth above
the starting depth and at most 5 (so in 1..5 when started at 0), and an
invocation at depth 5 makes none. -/
theorem castRay_terminates (env : Libm) (objects : List Object) (fuel : Nat) (o d : Vec3)
    (recursion : Int) (hfuel : (MAX_RECURSION - recursion).toNat < fuel) :
    ∃ calls, castRayFuel env objects fuel o d recursion
        = some (castRay env objects o d recursion, calls) ∧
      (∀ k ∈ calls, recursion + 1 ≤ k ∧ k ≤ 5) ∧
      (recursion = 5 → calls = []) := by
  induction fuel generalizing o d recursion with
  | zero => exact absurd hfuel (Nat.not_lt_zero _)
  | succ fuel ih =>
    rw [castRayFuel, castRay]
    by_cases hbg : (scan objects o d).intersect.isIntersecting = false ∨ recursion = MAX_RECURSION
    · simp only [hbg, if_true]
      exact ⟨[], rfl, by simp, fun _ => rfl⟩
    · simp only [hbg, if_false]
      have hne : recursion ≠ 5 := fun h => hbg (Or.inr h)
      cases hho : (scan objects o d).hitObject with
      | none => exact ⟨[], rfl, by simp, fun _ => rfl⟩
      | some hitObject =>
        simp only []
        have hrec : ∀ o2 d2, recursion < MAX_RECURSION →
            ∃ calls, castRayFuel env objects fuel o2 d2 (recursion + 1)
                = some (castRay env objects o2 d2 (recursion + 1), calls) ∧
              (∀ k ∈ calls, recursion + 1 + 1 ≤ k ∧ k ≤ 5) ∧
              (recursion + 1 = 5 → calls = []) := by
          intro o2 d2 hlt
          apply ih
          simp only [MAX_RECURSION] at *
          omega
        by_cases hlt : recursion < MAX_RECURSION
        · have hlt5 : recursion < 5 := hlt
          obtain ⟨c1, e1, b1, _⟩ := hrec
            ((scan objects o d).intersect.point + (scan objects o d).intersect.normal.scale BIAS)
            (reflect d (scan objects o d).intersect.normal) hlt
          obtain ⟨c2, e2, b2, _⟩ := hrec
            ((scan objects o d).intersect.point - (scan objects o d).intersect.normal.scale BIAS)
            (refract env d (scan objects o d).intersect.normal
              hitObject.material.refractionIndex) hlt
          by_cases h1 : hitObject.material.reflectivity > 0
          · by_cases h2 : hitObject.material.transparency > 0
            · refine ⟨((recursion + 1) :: c1) ++ ((recursion + 1) :: c2), ?_, ?_, ?_⟩
              · simp only [hlt, h1, h2, and_self, if_true, dite_true, e1, e2, Option.map_some']
              · intro k hk
                simp only [List.mem_append, List.mem_cons] at hk
                rcases hk with (hk | hk) | (hk | hk)
                · omega
                · have := b1 k hk; omega
                · omega
                · have := b2 k hk; omega
              · intro h5; exact absurd h5 hne
            · refine ⟨((recursion + 1) :: c1), ?_, ?_, ?_⟩
              · simp only [hlt, h1, h2, and_self, and_true, false_and, if_true, if_false,
                  dite_true, dite_false, e1, Option.map_some', List.append_nil]
              · intro k hk
                simp only [List.mem_cons] at hk
                rcases hk with hk | hk
                · omega
                · have := b1 k hk; omega
              · intro h5; exact absurd h5 hne
          · by_cases h2 : hitObject.material.transparency > 0
            · refine ⟨((recursion + 1) :: c2), ?_, ?_, ?_⟩
              · simp only [hlt, h1, h2, and_self, and_true, false_and, if_true, if_false,
                  dite_true, dite_false, e2, Option.map_some', List.nil_append]
              · intro k hk
                simp only [List.mem_cons] at hk
                rcases hk with hk | hk
                · omega
                · have := b2 k hk; omega
              · intro h5; exact absurd h5 hne
            · refine ⟨[], ?_, by simp, fun _ => rfl⟩
              simp only [hlt, h1, h2, and_true, false_and, if_false, dite_false, List.append_nil]
        · refine ⟨[], ?_, by simp, fun _ => rfl⟩
          simp only [hlt, and_false, if_false, dite_false, List.append_nil]

theorem castRay_terminates_witness :
    ∃ calls, castRayFuel exactLibm mirrorScene 6 (Vec3.ofRat 0 0 0) (Vec3.ofRat 1 0 0) 0
        = some (castRay exactLibm mirrorScene (Vec3.ofRat 0 0 0) (Vec3.ofRat 1 0 0) 0, calls) ∧
      (∀ k ∈ calls, (0 : Int) + 1 ≤ k ∧ k ≤ 5) ∧ ((0 : Int) = 5 → calls = []) :=
  castRay_terminates exactLibm mirrorScene 6 (Vec3.ofRat 0 0 0) (Vec3.ofRat 1 0 0) 0 (by decide)

/-- Between the two facing boxes of `mirrorScene`, both reflective and
transparent, the recursion does reach depth 5 and stops there. -/
theorem mirrorScene_calls :
    (castRayFuel exactLibm mirrorScene 6 (Vec3.ofRat 0 0 0) (Vec3.ofRat 1 0 0) 0).map Prod.snd
      = some [1, 2, 3, 4, 5, 5, 4, 5, 5, 3, 4, 5, 5, 4, 2, 3, 4, 5, 5, 4, 3, 1, 2, 3, 4, 5,
          5, 4, 3, 2] := by
  decide!

/-- C3, as stated, fails: in `grazeScene` the ray from `(-1, 0, -5)` along
`(0, 0, 1)` lies in the face plane `x = -1` of the first box, whose
`rayIntersect` reports an intersection at distance NaN; the scan selects the
second box, at distance 14, and `14 <= NaN` is false. -/
theorem scan_nearest_counterexample :
    (scan grazeScene (Vec3.ofRat (-1) 0 (-5)) (Vec3.ofRat 0 0 1)).hitObject.map Object.addr
        = some 2 ∧
      (scan grazeScene (Vec3.ofRat (-1) 0 (-5)) (Vec3.ofRat 0 0 1)).intersect.dist
        = Flt.fin 14 ∧
      ¬ (∀ obj ∈ grazeScene,
          (obj.rayIntersect (Vec3.ofRat (-1) 0 (-5)) (Vec3.ofRat 0 0 1)).isIntersecting = true →
          (scan grazeScene (Vec3.ofRat (-1) 0 (-5)) (Vec3.ofRat 0 0 1)).intersect.dist
            ≤ (obj.rayIntersect (Vec3.ofRat (-1) 0 (-5)) (Vec3.ofRat 0 0 1)).dist) := by
  refine ⟨by decide!, by decide!, ?_⟩
  intro h
  have h1 := h (originCube.toObject 1 grass) (by simp [grazeScene]) (by decide!)
  revert h1
  decide!

/-- C3, amended: whenever the scan selects an object, the selected result is
that object's, and its distance is a number below the initial `zBuffer` (an
object that reports an intersection at distance NaN is never selected); it is
less than or equal to the distance of every scene object that reports an
intersection at a distance that is a number (not NaN), no intersecting object
is strictly nearer, and no intersecting object earlier in index order is at an
equal distance. -/
theorem scan_nearest (objects : List Object) (o d : Vec3) (h : Object)
    (hsel : (scan objects o d).hitObject = some h) :
    (scan objects o d).intersect = h.rayIntersect o d ∧
      (h.rayIntersect o d).isIntersecting = true ∧
      (h.rayIntersect o d).dist ≠ Flt.nan ∧
      (h.rayIntersect o d).dist < zBufferInit ∧
      (∀ obj ∈ objects, (obj.rayIntersect o d).isIntersecting = true →
        (obj.rayIntersect o d).dist ≠ Flt.nan →
        (h.rayIntersect o d).dist ≤ (obj.rayIntersect o d).dist) ∧
      (∀ obj ∈ objects, (obj.rayIntersect o d).isIntersecting = true →
        ¬ ((obj.rayIntersect o d).dist < (h.rayIntersect o d).dist)) ∧
      ∃ k : Nat, objects[k]? = some h ∧
        ∀ (j : Nat) (obj : Object), j < k → objects[j]? = some obj →
          (obj.rayIntersect o d).isIntersecting = true →
          Flt.feq (obj.rayIntersect o d).dist (h.rayIntersect o d).dist = false := by
  rcases scan_spec objects o d with ⟨hh, _, _, _⟩ | ⟨k, h2, hk, hh, hi, _, hint, hlt, hall, hfirst⟩
  · rw [hh] at hsel; exact Option.noConfusion hsel
  · rw [hh] at hsel
    have heq : h2 = h := Option.some.inj hsel
    subst heq
    refine ⟨hi, hint, Flt.lt_ne_nan_left hlt, hlt, ?_, hall, k, hk, hfirst⟩
    intro obj hobj hio hnan
    exact Flt.le_of_not_lt (Flt.lt_ne_nan_left hlt) hnan (hall obj hobj hio)

/-- In `tieScene` the ray from `(-10, 0, 0)` along `(1, 0, 0)` meets all three
boxes, at distances 12, 6 and 6: the scan selects the second box, nearer than
the first and ahead of the third, which is at the same distance. -/
theorem scan_nearest_witness :
    (tieScene.map fun obj => ((obj.rayIntersect (Vec3.ofRat (-10) 0 0) (Vec3.ofRat 1 0 0)).isIntersecting,
        (obj.rayIntersect (Vec3.ofRat (-10) 0 0) (Vec3.ofRat 1 0 0)).dist))
        = [(true, Flt.fin 12), (true, Flt.fin 6), (true, Flt.fin 6)] ∧
      (scan tieScene (Vec3.ofRat (-10) 0 0) (Vec3.ofRat 1 0 0)).hitObject.map Object.addr = some 2 ∧
      ((scan tieScene (Vec3.ofRat (-10) 0 0) (Vec3.ofRat 1 0 0)).intersect = (Cube.toObject 2 ⟨Vec3.ofRat (-3) 0 0, 2⟩ grass).rayIntersect (Vec3.ofRat (-10) 0 0) (Vec3.ofRat 1 0 0) ∧
        ((Cube.toObject 2 ⟨Vec3.ofRat (-3) 0 0, 2⟩ grass).rayIntersect (Vec3.ofRat (-10) 0 0) (Vec3.ofRat 1 0 0)).isIntersecting = true ∧
        ((Cube.toObject 2 ⟨Vec3.ofRat (-3) 0 0, 2⟩ grass).rayIntersect (Vec3.ofRat (-10) 0 0) (Vec3.ofRat 1 0 0)).dist ≠ Flt.nan ∧
        ((Cube.toObject 2 ⟨Vec3.ofRat (-3) 0 0, 2⟩ grass).rayIntersect (Vec3.ofRat (-10) 0 0) (Vec3.ofRat 1 0 0)).dist < zBufferInit ∧
        (∀ obj ∈ tieScene, (obj.rayIntersect (Vec3.ofRat (-10) 0 0) (Vec3.ofRat 1 0 0)).isIntersecting = true →
          (obj.rayIntersect (Vec3.ofRat (-10) 0 0) (Vec3.ofRat 1 0 0)).dist ≠ Flt.nan →
          ((Cube.toObject 2 ⟨Vec3.ofRat (-3) 0 0, 2⟩ grass).rayIntersect (Vec3.ofRat (-10) 0 0) (Vec3.ofRat 1 0 0)).dist ≤ (obj.rayIntersect (Vec3.ofRat (-10) 0 0) (Vec3.ofRat 1 0 0)).dist) ∧
        (∀ obj ∈ tieScene, (obj.rayIntersect (Vec3.ofRat (-10) 0 0) (Vec3.ofRat 1 0 0)).isIntersecting = true →
          ¬ ((obj.rayIntersect (Vec3.ofRat (-10) 0 0) (Vec3.ofRat 1 0 0)).dist < ((Cube.toObject 2 ⟨Vec3.ofRat (-3) 0 0, 2⟩ grass).rayIntersect (Vec3.ofRat (-10) 0 0) (Vec3.ofRat 1 0 0)).dist)) ∧
        ∃ k : Nat, tieScene[k]? = some (Cube.toObject 2 ⟨Vec3.ofRat (-3) 0 0, 2⟩ grass) ∧
          ∀ (j : Nat) (obj : Object), j < k → tieScene[j]? = some obj →
            (obj.rayIntersect (Vec3.ofRat (-10) 0 0) (Vec3.ofRat 1 0 0)).isIntersecting = true →
            Flt.feq (obj.rayIntersect (Vec3.ofRat (-10) 0 0) (Vec3.ofRat 1 0 0)).dist ((Cube.toObject 2 ⟨Vec3.ofRat (-3) 0 0, 2⟩ grass).rayIntersect (Vec3.ofRat (-10) 0 0) (Vec3.ofRat 1 0 0)).dist = false) :=
  have h1 : (scan tieScene (Vec3.ofRat (-10) 0 0) (Vec3.ofRat 1 0 0)).hitObject.map Object.addr = some 2 := by decide!
  ⟨by decide!, h1,
    scan_nearest tieScene (Vec3.ofRat (-10) 0 0) (Vec3.ofRat 1 0 0) (Cube.toObject 2 ⟨Vec3.ofRat (-3) 0 0, 2⟩ grass)
      (by
        rcases scan_spec tieScene (Vec3.ofRat (-10) 0 0) (Vec3.ofRat 1 0 0) with
          ⟨hh, _, _, _⟩ | ⟨k, h2, hk, hh, _, _, _, _, _, _⟩
        · rw [hh] at h1; exact Option.noConfusion h1
        · rw [hh] at h1 ⊢
          have hmem := List.getElem?_mem hk
          simp only [tieScene, List.mem_cons, List.mem_singleton, List.not_mem_nil,
            or_false] at hmem
          rcases hmem with hm | hm | hm
          · rw [hm] at h1
            exact absurd h1 (by decide)
          · rw [hm]
          · rw [hm] at h1
            exact absurd h1 (by decide))⟩

/-- C4, as stated, fails: the box of `farScene` reports an intersection at
distance 100000, which is not below the initial `zBuffer` of 99999; the scan
selects nothing and `castRay` returns the background colour at depth 0. -/
theorem scan_far_counterexample :
    (∃ obj ∈ farScene,
      (obj.rayIntersect (Vec3.ofRat 0 0 0) (Vec3.ofRat 0 0 1)).isIntersecting = true) ∧
      (scan farScene (Vec3.ofRat 0 0 0) (Vec3.ofRat 0 0 1)).hitObject.isSome = false ∧
      (scan farScene (Vec3.ofRat 0 0 0) (Vec3.ofRat 0 0 1)).intersect.isIntersecting = false ∧
      castRay exactLibm farScene (Vec3.ofRat 0 0 0) (Vec3.ofRat 0 0 1) 0 = backgroundColor := by
  refine ⟨⟨Cube.toObject 1 ⟨Vec3.ofRat 0 0 100001, 2⟩ grass, by simp [farScene], by decide!⟩,
    by decide!, by decide!, ?_⟩
  exact castRay_of_noHit _ _ _ _ _ (Or.inl (by decide!))

/-- C4, amended: the scan selects a hit object exactly when some scene object
reports an intersection at a distance below the initial `zBuffer`, 99999; so
`castRay` at a depth other than 5 takes the background branch only if no
object reports an intersection nearer than that. -/
theorem scan_hit_iff (objects : List Object) (o d : Vec3) :
    ((scan objects o d).hitObject.isSome = true ↔
        ∃ obj ∈ objects, (obj.rayIntersect o d).isIntersecting = true ∧
          (obj.rayIntersect o d).dist < zBufferInit) ∧
      ((scan objects o d).intersect.isIntersecting = true ↔
        ∃ obj ∈ objects, (obj.rayIntersect o d).isIntersecting = true ∧
          (obj.rayIntersect o d).dist < zBufferInit) ∧
      zBufferInit = Flt.fin 99999 :=
  ⟨(scan_hitObject_iff objects o d).trans (scan_hit_iff_exists objects o d),
    scan_hit_iff_exists objects o d, by decide!⟩

/-! ## `castShadow` -/

namespace Flt

theorem le_tr {a b c : Flt} (h1 : a ≤ b) (h2 : b ≤ c) : a ≤ c := by
  cases a <;> cases b <;> cases c <;> simp_all [le_def, le, lt, feq]
  rcases h1 with h1 | h1 <;> rcases h2 with h2 | h2
  · left; exact lt_trans h1 h2
  · left; exact h2 ▸ h1
  · left; exact h1 ▸ h2
  · right; exact h1.trans h2

theorem lt_le_tr {a b c : Flt} (h1 : a < b) (h2 : b ≤ c) : a < c := by
  cases a <;> cases b <;> cases c <;> simp_all [lt_def, le_def, le, lt, feq]
  rcases h2 with h2 | h2
  · exact lt_trans h1 h2
  · exact h2 ▸ h1

theorem unit_range {a : Flt} (h0 : (0 : Flt) ≤ a) (h1 : a ≤ 1) :
    ∃ q : ℚ, a = fin q ∧ 0 ≤ q ∧ q ≤ 1 := by
  cases a with
  | fin q =>
    rw [zero_eq, fin_le_fin] at h0
    rw [one_eq, fin_le_fin] at h1
    exact ⟨q, rfl, h0, h1⟩
  | pinf => simp [le_def, le, lt, feq] at h1
  | ninf => simp [le_def, le, lt, feq] at h0
  | nan => simp [le_def, le, lt, feq] at h0

theorem not_lt_nan (a : Flt) : ¬ (a < nan) := by
  cases a <;> simp [lt_def, lt]

theorem not_nan_lt (a : Flt) : ¬ (nan < a) := by
  cases a <;> simp [lt_def, lt]

theorem clamp_fin (q : ℚ) :
    clamp (fin q) 0 1 = fin (if q < 0 then 0 else if 1 < q then 1 else q) := by
  by_cases h0 : q < 0
  · have h1 : ¬ ((1 : ℚ) < 0) := by norm_num
    simp [clamp, min, max, h0, h1]
  · by_cases h1 : 1 < q
    · simp [clamp, min, max, h0, h1]
    · simp [clamp, min, max, h0, h1]

theorem clamp_pinf : clamp pinf 0 1 = fin 1 := by decide!

theorem clamp_ninf : clamp ninf 0 1 = fin 0 := by decide!

theorem clamp_nan : clamp nan 0 1 = nan := by decide!

/-- The value `clamp(x, 0, 1)` is NaN or a number of `[0, 1]`. -/
theorem clamp_cases (x : Flt) :
    clamp x 0 1 = nan ∨ ∃ q : ℚ, clamp x 0 1 = fin q ∧ 0 ≤ q ∧ q ≤ 1 := by
  cases x with
  | fin q =>
    right
    rw [clamp_fin]
    refine ⟨_, rfl, ?_, ?_⟩ <;> split_ifs <;> linarith
  | pinf => right; exact ⟨1, clamp_pinf, by norm_num, by norm_num⟩
  | ninf => right; exact ⟨0, clamp_ninf, by norm_num, by norm_num⟩
  | nan => left; exact clamp_nan

/-- One step of the running minimum of `castShadow`, for a running value in
`[0, 1]`. -/
theorem min_clamp_step (acc x : Flt) (h0 : (0 : Flt) ≤ acc) (h1 : acc ≤ 1) :
    (0 : Flt) ≤ min acc (clamp x 0 1) ∧ min acc (clamp x 0 1) ≤ 1 ∧
      min acc (clamp x 0 1) ≤ acc ∧ ¬ (clamp x 0 1 < min acc (clamp x 0 1)) ∧
      (min acc (clamp x 0 1) = acc ∨ min acc (clamp x 0 1) = clamp x 0 1) := by
  obtain ⟨a, rfl, ha0, ha1⟩ := unit_range h0 h1
  rcases clamp_cases x with hc | ⟨q, hc, hq0, hq1⟩
  · rw [hc]
    have hm : min (fin a) nan = fin a := by simp [min, not_nan_lt]
    rw [hm]
    refine ⟨h0, h1, ?_, not_nan_lt _, Or.inl rfl⟩
    rw [fin_le_fin]
  · rw [hc]
    by_cases hlt : q < a
    · have hm : min (fin a) (fin q) = fin q := by simp [min, hlt]
      rw [hm]
      simp only [zero_eq, one_eq, fin_le_fin, fin_lt_fin]
      exact ⟨hq0, hq1, le_of_lt hlt, lt_irrefl q, Or.inr trivial⟩
    · have hm : min (fin a) (fin q) = fin a := by simp [min, hlt]
      rw [hm]
      simp only [zero_eq, one_eq, fin_le_fin, fin_lt_fin]
      exact ⟨ha0, ha1, le_refl a, hlt, Or.inl trivial⟩

end Flt

theorem castShadowStep_skip (so ld : Vec3) (hit : Option Object) (soft acc : Flt) (obj : Object)
    (h : (obj.differsFrom hit
      && (obj.rayIntersect so ld).isIntersecting
      && decide ((obj.rayIntersect so ld).dist > 0)) = false) :
    castShadowStep so ld hit soft acc obj = acc := by
  unfold castShadowStep
  by_cases h1 : obj.differsFrom hit = true
  · by_cases h2 : (obj.rayIntersect so ld).isIntersecting = true
    · have h3 : ¬ ((obj.rayIntersect so ld).dist > 0) := by
        simpa [h1, h2] using h
      rw [if_pos h1]
      dsimp only
      rw [if_neg (fun hh => h3 hh.2)]
    · rw [if_pos h1]
      dsimp only
      rw [if_neg (fun hh => h2 hh.1)]
  · rw [if_neg h1]

theorem castShadowStep_take (so ld : Vec3) (hit : Option Object) (soft acc : Flt) (obj : Object)
    (h : (obj.differsFrom hit
      && (obj.rayIntersect so ld).isIntersecting
      && decide ((obj.rayIntersect so ld).dist > 0)) = true) :
    castShadowStep so ld hit soft acc obj
      = Flt.min acc (Flt.clamp ((obj.rayIntersect so ld).dist * soft) 0 1) := by
  unfold castShadowStep
  simp only [Bool.and_eq_true, decide_eq_true_eq] at h
  rw [if_pos h.1.1]
  dsimp only
  rw [if_pos ⟨h.1.2, h.2⟩]

/-- The loop of `castShadow` from a running value in `[0, 1]`. -/
theorem castShadow_fold (objects : List Object) (so ld : Vec3) (hit : Option Object)
    (soft acc : Flt) (h0 : (0 : Flt) ≤ acc) (h1 : acc ≤ 1) :
    (0 : Flt) ≤ objects.foldl (castShadowStep so ld hit soft) acc ∧
      objects.foldl (castShadowStep so ld hit soft) acc ≤ 1 ∧
      objects.foldl (castShadowStep so ld hit soft) acc ≤ acc ∧
      (∀ f ∈ specShadowFactors objects so ld hit soft,
        ¬ (f < objects.foldl (castShadowStep so ld hit soft) acc)) ∧
      (objects.foldl (castShadowStep so ld hit soft) acc = acc ∨
        objects.foldl (castShadowStep so ld hit soft) acc
          ∈ specShadowFactors objects so ld hit soft) := by
  induction objects generalizing acc with
  | nil =>
    obtain ⟨a, rfl, _, _⟩ := Flt.unit_range h0 h1
    refine ⟨h0, h1, ?_, ?_, Or.inl rfl⟩
    · simp
    · simp [specShadowFactors]
  | cons a l ih =>
    rw [List.foldl_cons]
    by_cases hc : (a.differsFrom hit
        && (a.rayIntersect so ld).isIntersecting
        && decide ((a.rayIntersect so ld).dist > 0)) = true
    · rw [castShadowStep_take so ld hit soft acc a hc]
      obtain ⟨s0, s1, s2, s3, s4⟩ :=
        Flt.min_clamp_step acc ((a.rayIntersect so ld).dist * soft) h0 h1
      obtain ⟨i0, i1, i2, i3, i4⟩ := ih _ s0 s1
      have hf : specShadowFactors (a :: l) so ld hit soft
          = Flt.clamp ((a.rayIntersect so ld).dist * soft) 0 1
            :: specShadowFactors l so ld hit soft := by
        simp only [specShadowFactors, List.filter_cons, hc, if_true, List.map_cons]
      rw [hf]
      refine ⟨i0, i1, Flt.le_tr i2 s2, ?_, ?_⟩
      · intro f hfm
        rcases List.mem_cons.mp hfm with hfm | hfm
        · rw [hfm]
          intro hlt
          exact s3 (Flt.lt_le_tr hlt i2)
        · exact i3 f hfm
      · rcases i4 with i4 | i4
        · rcases s4 with s4 | s4
          · left; rw [i4, s4]
          · right; rw [i4, s4]; exact List.mem_cons_self _ _
        · right; exact List.mem_cons_of_mem _ i4
    · simp only [Bool.not_eq_true] at hc
      rw [castShadowStep_skip so ld hit soft acc a hc]
      have hf : specShadowFactors (a :: l) so ld hit soft
          = specShadowFactors l so ld hit soft := by
        simp only [specShadowFactors, List.filter_cons, hc, Bool.false_eq_true, if_false]
      rw [hf]
      exact ih acc h0 h1

theorem castShadow_range (objects : List Object) (so ld : Vec3) (hit : Option Object)
    (soft : Flt) :
    ∃ q : ℚ, castShadow objects so ld hit soft = Flt.fin q ∧ 0 ≤ q ∧ q ≤ 1 := by
  have h0 : (0 : Flt) ≤ 1 := by decide!
  have h1 : (1 : Flt) ≤ 1 := by decide!
  obtain ⟨r0, r1, _, _, _⟩ := castShadow_fold objects so ld hit soft 1 h0 h1
  exact Flt.unit_range r0 r1

theorem castShadow_filter (objects : List Object) (so ld : Vec3) (hit : Option Object)
    (soft acc : Flt) :
    (objects.filter (fun obj => obj.differsFrom hit)).foldl (castShadowStep so ld hit soft) acc
      = objects.foldl (castShadowStep so ld hit soft) acc := by
  induction objects generalizing acc with
  | nil => rfl
  | cons a l ih =>
    by_cases hd : a.differsFrom hit = true
    · simp only [List.filter_cons, hd, if_true, List.foldl_cons]
      exact ih _
    · have hs : castShadowStep so ld hit soft acc a = acc := by
        unfold castShadowStep
        rw [if_neg hd]
      simp only [List.filter_cons, hd, if_false, List.foldl_cons, hs]
      exact ih _

/-- C8: `castShadow` returns the minimum of 1 and of the factors
`clamp(dist × softness, 0, 1)` taken over every scene object other than the hit
object that reports an intersection with `dist > 0`: the result is 1 or one of
the factors, it is at most 1 and at most every factor (a factor that is NaN,
which no number is compared with, apart), no factor is below it; it lies in
`[0, 1]`; the hit object never attenuates it (removing the objects at the hit
object's address from the scene leaves it unchanged); and it is exactly 1
when no other object intersects the shadow ray. -/
theorem castShadow_minimum (objects : List Object) (so ld : Vec3) (hit : Option Object)
    (soft : Flt) :
    (castShadow objects so ld hit soft = 1 ∨
        castShadow objects so ld hit soft ∈ specShadowFactors objects so ld hit soft) ∧
      (∀ f ∈ specShadowFactors objects so ld hit soft, f ≠ Flt.nan →
        castShadow objects so ld hit soft ≤ f) ∧
      (∀ f ∈ specShadowFactors objects so ld hit soft,
        ¬ (f < castShadow objects so ld hit soft)) ∧
      ((0 : Flt) ≤ castShadow objects so ld hit soft ∧ castShadow objects so ld hit soft ≤ 1) ∧
      castShadow (objects.filter (fun obj => obj.differsFrom hit)) so ld hit soft
        = castShadow objects so ld hit soft ∧
      ((∀ obj ∈ objects, obj.differsFrom hit = true →
          (obj.rayIntersect so ld).isIntersecting = false) →
        castShadow objects so ld hit soft = 1) := by
  have h0 : (0 : Flt) ≤ 1 := by decide!
  have h1 : (1 : Flt) ≤ 1 := by decide!
  obtain ⟨r0, r1, _, r3, r4⟩ := castShadow_fold objects so ld hit soft 1 h0 h1
  refine ⟨r4, ?_, r3, ⟨r0, r1⟩, castShadow_filter objects so ld hit soft 1, ?_⟩
  · intro f hf hnan
    obtain ⟨q, hq, _, _⟩ := Flt.unit_range r0 r1
    refine Flt.le_of_not_lt ?_ hnan (r3 f hf)
    show castShadow objects so ld hit soft ≠ Flt.nan
    unfold castShadow
    rw [hq]
    exact fun h => Flt.noConfusion h
  · intro hnone
    have hempty : specShadowFactors objects so ld hit soft = [] := by
      unfold specShadowFactors
      rw [List.map_eq_nil_iff, List.filter_eq_nil_iff]
      intro obj hobj
      by_cases hd : obj.differsFrom hit = true
      · simp [hd, hnone obj hobj hd]
      · simp [hd]
    rcases r4 with r4 | r4
    · exact r4
    · unfold castShadow at *
      rw [hempty] at r4
      exact absurd r4 (List.not_mem_nil _)

/-- For a positive distance, the factor `clamp(dist × 0.5, 0, 1)` is below 1
exactly when the distance is below 2. -/
theorem factor_lt_one_iff (x : Flt) (hx : x > 0) :
    Flt.clamp (x * defaultShadowSoftness) 0 1 < 1 ↔ x < 2 := by
  cases x with
  | fin q =>
    have hq : 0 < q := by simpa using hx
    have e : Flt.fin q * defaultShadowSoftness = Flt.fin (q * (1 / 2)) := rfl
    rw [e, Flt.clamp_fin]
    simp only [Flt.one_eq, Flt.two_eq, Flt.fin_lt_fin]
    constructor
    · intro h
      split_ifs at h <;> linarith
    · intro h
      split_ifs <;> linarith
  | pinf =>
    have e : Flt.pinf * defaultShadowSoftness = Flt.pinf := by decide!
    rw [e, Flt.clamp_pinf]
    simp [Flt.lt_def, Flt.lt]
  | ninf => simp [Flt.lt_def, Flt.lt] at hx
  | nan => simp [Flt.lt_def, Flt.lt] at hx

/-- C9, as stated, fails: in `beyondLightScene` the ray from `(4, 9/2, 0)`
along `(0, -1, 0)` hits the top face of the first box at `(4, 4, 0)`, one unit
below the light; the only other object meets the shadow ray at distance
12499/10000, beyond the light, which is 9999/10000 away from the shadow
origin; yet the shadow factor of that hit is 12499/20000, not 1. -/
theorem shadow_beyond_light_counterexample :
    (scan beyondLightScene (Vec3.ofRat 4 (9 / 2) 0) (Vec3.ofRat 0 (-1) 0)).intersect
        = ⟨true, Flt.fin (1 / 2), Vec3.ofRat 4 4 0, Vec3.ofRat 0 1 0⟩ ∧
      (scan beyondLightScene (Vec3.ofRat 4 (9 / 2) 0)
        (Vec3.ofRat 0 (-1) 0)).hitObject.map Object.addr = some 1 ∧
      lightDirOf exactLibm
          (scan beyondLightScene (Vec3.ofRat 4 (9 / 2) 0) (Vec3.ofRat 0 (-1) 0)).intersect
        = Vec3.ofRat 0 1 0 ∧
      (∀ obj ∈ beyondLightScene,
        obj.differsFrom
          (scan beyondLightScene (Vec3.ofRat 4 (9 / 2) 0) (Vec3.ofRat 0 (-1) 0)).hitObject
          = true →
        ¬ liesBeforeLight obj
          ((scan beyondLightScene (Vec3.ofRat 4 (9 / 2) 0) (Vec3.ofRat 0 (-1) 0)).intersect.point
            + (scan beyondLightScene (Vec3.ofRat 4 (9 / 2) 0)
                (Vec3.ofRat 0 (-1) 0)).intersect.normal.scale BIAS)
          (lightDirOf exactLibm
            (scan beyondLightScene (Vec3.ofRat 4 (9 / 2) 0) (Vec3.ofRat 0 (-1) 0)).intersect)) ∧
      shadowIntensityOf exactLibm beyondLightScene
          (scan beyondLightScene (Vec3.ofRat 4 (9 / 2) 0) (Vec3.ofRat 0 (-1) 0)).intersect
          (scan beyondLightScene (Vec3.ofRat 4 (9 / 2) 0) (Vec3.ofRat 0 (-1) 0)).hitObject
        = Flt.fin (12499 / 20000) := by
  refine ⟨by decide!, by decide!, by decide!, ?_, by decide!⟩
  intro obj hobj
  simp only [beyondLightScene, List.mem_cons, List.mem_singleton, List.not_mem_nil,
    or_false] at hobj
  rcases hobj with h | h <;> subst h <;> decide!

/-- C9, amended: the shadow factor that `castRay` computes for a hit is exactly
1 if and only if no scene object other than the hit object reports an
intersection of the shadow ray at a positive distance below 2 (the distance at
which `dist × 0.5` reaches 1), wherever the light lies on that ray. -/
theorem shadowIntensity_one_iff (env : Libm) (objects : List Object) (intersect : Intersect)
    (hit : Option Object) :
    shadowIntensityOf env objects intersect hit = 1 ↔
      ∀ obj ∈ objects, obj.differsFrom hit = true →
        (obj.rayIntersect (intersect.point + intersect.normal.scale BIAS)
          (lightDirOf env intersect)).isIntersecting = true →
        (obj.rayIntersect (intersect.point + intersect.normal.scale BIAS)
          (lightDirOf env intersect)).dist > 0 →
        ¬ ((obj.rayIntersect (intersect.point + intersect.normal.scale BIAS)
          (lightDirOf env intersect)).dist < 2) := by
  unfold shadowIntensityOf
  have h0 : (0 : Flt) ≤ 1 := by decide!
  have h1 : (1 : Flt) ≤ 1 := by decide!
  obtain ⟨r0, r1, _, r3, r4⟩ := castShadow_fold objects
    (intersect.point + intersect.normal.scale BIAS) (lightDirOf env intersect) hit
    defaultShadowSoftness 1 h0 h1
  change (0 : Flt) ≤ castShadow objects (intersect.point + intersect.normal.scale BIAS)
    (lightDirOf env intersect) hit defaultShadowSoftness at r0
  change castShadow objects (intersect.point + intersect.normal.scale BIAS)
    (lightDirOf env intersect) hit defaultShadowSoftness ≤ 1 at r1
  change ∀ f ∈ specShadowFactors objects (intersect.point + intersect.normal.scale BIAS)
      (lightDirOf env intersect) hit defaultShadowSoftness,
    ¬ (f < castShadow objects (intersect.point + intersect.normal.scale BIAS)
      (lightDirOf env intersect) hit defaultShadowSoftness) at r3
  change castShadow objects (intersect.point + intersect.normal.scale BIAS)
      (lightDirOf env intersect) hit defaultShadowSoftness = 1 ∨
    castShadow objects (intersect.point + intersect.normal.scale BIAS)
      (lightDirOf env intersect) hit defaultShadowSoftness
      ∈ specShadowFactors objects (intersect.point + intersect.normal.scale BIAS)
        (lightDirOf env intersect) hit defaultShadowSoftness at r4
  constructor
  · intro hr obj hobj hd hi hpos hlt
    have hf : Flt.clamp ((obj.rayIntersect (intersect.point + intersect.normal.scale BIAS)
        (lightDirOf env intersect)).dist * defaultShadowSoftness) 0 1
        ∈ specShadowFactors objects (intersect.point + intersect.normal.scale BIAS)
          (lightDirOf env intersect) hit defaultShadowSoftness := by
      unfold specShadowFactors
      refine List.mem_map.mpr ⟨obj, ?_, rfl⟩
      rw [List.mem_filter]
      refine ⟨hobj, ?_⟩
      simp only [Bool.and_eq_true, decide_eq_true_eq]
      exact ⟨⟨hd, hi⟩, hpos⟩
    have := r3 _ hf
    rw [hr] at this
    exact this ((factor_lt_one_iff _ hpos).mpr hlt)
  · intro hall
    rcases r4 with r4 | r4
    · exact r4
    · unfold specShadowFactors at r4
      obtain ⟨obj, hobj, hval⟩ := List.mem_map.mp r4
      rw [List.mem_filter] at hobj
      simp only [Bool.and_eq_true, decide_eq_true_eq] at hobj
      obtain ⟨hmem, ⟨hd, hi⟩, hpos⟩ := hobj
      have hnlt := hall obj hmem hd hi hpos
      rw [← factor_lt_one_iff _ hpos, hval] at hnlt
      obtain ⟨q, hq, _, hq1⟩ := Flt.unit_range r0 r1
      rw [hq] at hnlt ⊢
      rw [Flt.one_eq, Flt.fin_lt_fin] at hnlt
      rw [Flt.one_eq]
      congr 1
      linarith

/-! ## `Cube::rayIntersect`: distance and normal -/

/-- C6: the code at the failing input.  The ray from the centre of
`originCube` along `(1, 0, 0)` starts inside the box; the exit distance 1 is
used and compared with the entry distances only, so the reported normal stays
the zero vector, which is not of unit length. -/
theorem rayIntersect_inside_zero_normal :
    originCube.rayIntersect (Vec3.ofRat 0 0 0) (Vec3.ofRat 1 0 0)
        = ⟨true, Flt.fin 1, Vec3.ofRat 1 0 0, Vec3.ofRat 0 0 0⟩ ∧
      Vec3.dot (originCube.rayIntersect (Vec3.ofRat 0 0 0) (Vec3.ofRat 1 0 0)).normal
          (originCube.rayIntersect (Vec3.ofRat 0 0 0) (Vec3.ofRat 1 0 0)).normal
        = Flt.fin 0 := by
  constructor <;> decide!

/-! ## The slab of one axis -/

namespace Flt

theorem min_fin_fin (a b : ℚ) : min (fin a) (fin b) = fin (Min.min a b) := by
  unfold min
  by_cases h : b < a
  · rw [if_pos ((fin_lt_fin b a).mpr h), min_eq_right (le_of_lt h)]
  · rw [if_neg (fun hh => h ((fin_lt_fin b a).mp hh)), min_eq_left (not_lt.mp h)]

theorem max_fin_fin (a b : ℚ) : max (fin a) (fin b) = fin (Max.max a b) := by
  unfold max
  by_cases h : a < b
  · rw [if_pos ((fin_lt_fin a b).mpr h), max_eq_right (le_of_lt h)]
  · rw [if_neg (fun hh => h ((fin_lt_fin a b).mp hh)), max_eq_left (not_lt.mp h)]

theorem one_div_fin (d : ℚ) (hd : d ≠ 0) : (1 : Flt) / fin d = fin (1 / d) := by
  rw [one_eq]; exact fin_div_fin 1 d hd

theorem one_div_fin_zero : (1 : Flt) / fin 0 = pinf := by
  rw [one_eq]; exact one_div_zero

end Flt

theorem slabMin_fin (lo hi o d : ℚ) (hd : d ≠ 0) :
    slabMin (Flt.fin lo) (Flt.fin hi) (Flt.fin o) (Flt.fin d)
      = Flt.fin (min ((lo - o) * (1 / d)) ((hi - o) * (1 / d))) := by
  unfold slabMin
  rw [Flt.one_div_fin d hd, Flt.fin_sub_fin, Flt.fin_sub_fin, Flt.fin_mul_fin, Flt.fin_mul_fin,
    Flt.min_fin_fin]

theorem slabMax_fin (lo hi o d : ℚ) (hd : d ≠ 0) :
    slabMax (Flt.fin lo) (Flt.fin hi) (Flt.fin o) (Flt.fin d)
      = Flt.fin (max ((lo - o) * (1 / d)) ((hi - o) * (1 / d))) := by
  unfold slabMax
  rw [Flt.one_div_fin d hd, Flt.fin_sub_fin, Flt.fin_sub_fin, Flt.fin_mul_fin, Flt.fin_mul_fin,
    Flt.max_fin_fin]

/-- The slab of an axis along which the ray does not move (`d = 0`). -/
theorem slab_zero (lo hi o : ℚ) (h : lo < hi) :
    (o < lo → slabMin (Flt.fin lo) (Flt.fin hi) (Flt.fin o) (Flt.fin 0) = Flt.pinf ∧
        slabMax (Flt.fin lo) (Flt.fin hi) (Flt.fin o) (Flt.fin 0) = Flt.pinf) ∧
      (o = lo → slabMin (Flt.fin lo) (Flt.fin hi) (Flt.fin o) (Flt.fin 0) = Flt.nan ∧
        slabMax (Flt.fin lo) (Flt.fin hi) (Flt.fin o) (Flt.fin 0) = Flt.nan) ∧
      (lo < o → o < hi → slabMin (Flt.fin lo) (Flt.fin hi) (Flt.fin o) (Flt.fin 0) = Flt.ninf ∧
        slabMax (Flt.fin lo) (Flt.fin hi) (Flt.fin o) (Flt.fin 0) = Flt.pinf) ∧
      (hi ≤ o → slabMin (Flt.fin lo) (Flt.fin hi) (Flt.fin o) (Flt.fin 0) = Flt.ninf ∧
        slabMax (Flt.fin lo) (Flt.fin hi) (Flt.fin o) (Flt.fin 0) = Flt.ninf) := by
  unfold slabMin slabMax
  rw [Flt.one_div_fin_zero, Flt.fin_sub_fin, Flt.fin_sub_fin, Flt.fin_mul_pinf, Flt.fin_mul_pinf]
  refine ⟨?_, ?_, ?_, ?_⟩
  · intro ho
    have h1 : lo - o ≠ 0 := by intro hh; linarith
    have h2 : hi - o ≠ 0 := by intro hh; linarith
    have h3 : 0 < lo - o := by linarith
    have h4 : 0 < hi - o := by linarith
    simp [Flt.infTimes, h1, h2, h3, h4, Flt.min, Flt.max, Flt.lt_def, Flt.lt]
  · intro ho
    subst ho
    have h2 : hi - o ≠ 0 := by intro hh; linarith
    have h4 : 0 < hi - o := by linarith
    simp [Flt.infTimes, h2, h4, Flt.min, Flt.max, Flt.lt_def, Flt.lt]
  · intro ho1 ho2
    have h1 : lo - o ≠ 0 := by intro hh; linarith
    have h2 : hi - o ≠ 0 := by intro hh; linarith
    have h3 : ¬ (0 < lo - o) := by intro hh; linarith
    have h4 : 0 < hi - o := by linarith
    simp [Flt.infTimes, h1, h2, h3, h4, Flt.min, Flt.max, Flt.lt_def, Flt.lt]
  · intro ho
    have h1 : lo - o ≠ 0 := by intro hh; linarith
    have h3 : ¬ (0 < lo - o) := by intro hh; linarith
    have h4 : ¬ (0 < hi - o) := by intro hh; linarith
    by_cases h2 : hi - o = 0
    · simp [Flt.infTimes, h1, h2, h3, Flt.min, Flt.max, Flt.lt_def, Flt.lt]
    · simp [Flt.infTimes, h1, h2, h3, h4, Flt.min, Flt.max, Flt.lt_def, Flt.lt]

/-- The facts about the slab of one axis that the normal selection rests on,
for a box of positive edge. -/
theorem slab_facts (lo hi o d : ℚ) (h : lo < hi) :
    (slabMin (Flt.fin lo) (Flt.fin hi) (Flt.fin o) (Flt.fin d) ≠ Flt.nan →
        slabMax (Flt.fin lo) (Flt.fin hi) (Flt.fin o) (Flt.fin d) ≠ Flt.nan) ∧
      ((slabMin (Flt.fin lo) (Flt.fin hi) (Flt.fin o) (Flt.fin d)).isFinite = true → d ≠ 0) ∧
      (o < lo ∨ hi < o →
        slabMin (Flt.fin lo) (Flt.fin hi) (Flt.fin o) (Flt.fin d) ≠ Flt.nan ∧
        ((0 : Flt) < slabMin (Flt.fin lo) (Flt.fin hi) (Flt.fin o) (Flt.fin d) ∨
          slabMax (Flt.fin lo) (Flt.fin hi) (Flt.fin o) (Flt.fin d) < 0)) := by
  by_cases hd : d = 0
  · subst hd
    obtain ⟨z1, z2, z3, z4⟩ := slab_zero lo hi o h
    rcases lt_trichotomy o lo with ho | ho | ho
    · obtain ⟨e1, e2⟩ := z1 ho
      rw [e1, e2]
      simp [Flt.isFinite, Flt.lt_def, Flt.lt]
    · obtain ⟨e1, e2⟩ := z2 ho
      rw [e1, e2]
      simp [Flt.isFinite]
      constructor <;> linarith
    · by_cases ho2 : o < hi
      · obtain ⟨e1, e2⟩ := z3 ho ho2
        rw [e1, e2]
        simp only [ne_eq, Flt.isFinite, reduceCtorEq, not_false_eq_true, true_implies,
          Bool.false_eq_true, false_implies, true_and]
        intro hh
        rcases hh with hh | hh <;> linarith
      · obtain ⟨e1, e2⟩ := z4 (not_lt.mp ho2)
        rw [e1, e2]
        simp [Flt.isFinite, Flt.lt_def, Flt.lt]
  · rw [slabMin_fin lo hi o d hd, slabMax_fin lo hi o d hd]
    refine ⟨fun _ hh => Flt.noConfusion hh, fun _ => hd, ?_⟩
    intro hout
    refine ⟨fun hh => Flt.noConfusion hh, ?_⟩
    rw [Flt.zero_eq, Flt.fin_lt_fin, Flt.fin_lt_fin]
    rcases lt_or_gt_of_ne hd with hneg | hpos
    · have hi1 : 1 / d < 0 := one_div_neg.mpr hneg
      rcases hout with ho | ho
      · right
        exact max_lt (mul_neg_of_pos_of_neg (by linarith) hi1)
          (mul_neg_of_pos_of_neg (by linarith) hi1)
      · left
        exact lt_min (mul_pos_of_neg_of_neg (by linarith) hi1)
          (mul_pos_of_neg_of_neg (by linarith) hi1)
    · have hi1 : 0 < 1 / d := one_div_pos.mpr hpos
      rcases hout with ho | ho
      · left
        exact lt_min (mul_pos (by linarith) hi1) (mul_pos (by linarith) hi1)
      · right
        exact max_lt (mul_neg_of_neg_of_pos (by linarith) hi1)
          (mul_neg_of_neg_of_pos (by linarith) hi1)

/-! ## The reductions `tEnter` and `tExit` in the presence of NaN -/

namespace Flt

theorem lt_asym {a b : Flt} (h1 : a < b) (h2 : b < a) : False :=
  lt_irr a (lt_tr h1 h2)

theorem max_nan_left (b : Flt) : max nan b = nan := by
  unfold max
  rw [if_neg (not_nan_lt b)]

theorem max_ne_nan {a : Flt} (b : Flt) (ha : a ≠ nan) : max a b ≠ nan := by
  unfold max
  split_ifs with h
  · exact lt_ne_nan_right h
  · exact ha

theorem min_ne_nan {a : Flt} (b : Flt) (ha : a ≠ nan) : min a b ≠ nan := by
  unfold min
  split_ifs with h
  · exact lt_ne_nan_left h
  · exact ha

theorem max_eq_or (a b : Flt) : max a b = a ∨ max a b = b := by
  unfold max
  split_ifs
  · right; rfl
  · left; rfl

theorem min_eq_or (a b : Flt) : min a b = a ∨ min a b = b := by
  unfold min
  split_ifs
  · right; rfl
  · left; rfl

theorem not_max_lt_left (a b : Flt) : ¬ (max a b < a) := by
  unfold max
  split_ifs with h
  · exact fun hh => lt_asym h hh
  · exact lt_irr a

theorem not_max_lt_right (a b : Flt) : ¬ (max a b < b) := by
  unfold max
  split_ifs with h
  · exact lt_irr b
  · exact h

theorem not_lt_min_left (a b : Flt) : ¬ (a < min a b) := by
  unfold min
  split_ifs with h
  · exact fun hh => lt_asym h hh
  · exact lt_irr a

theorem not_lt_min_right (a b : Flt) : ¬ (b < min a b) := by
  unfold min
  split_ifs with h
  · exact lt_irr b
  · exact h

/-- No argument is above the maximum of three. -/
theorem not_max3_lt (x y z : Flt) :
    ¬ (max (max x y) z < x) ∧ ¬ (max (max x y) z < y) ∧ ¬ (max (max x y) z < z) := by
  refine ⟨?_, ?_, not_max_lt_right _ _⟩
  · intro h
    rcases max_eq_or (max x y) z with e | e
    · rw [e] at h; exact not_max_lt_left x y h
    · have h1 : ¬ (max (max x y) z < max x y) := not_max_lt_left _ _
      by_cases h2 : max x y < z
      · rw [e] at h; exact not_max_lt_left x y (lt_tr h2 h)
      · have e2 : max (max x y) z = max x y := by
          show (if max x y < z then z else max x y) = max x y
          rw [if_neg h2]
        rw [e2] at h; exact not_max_lt_left x y h
  · intro h
    by_cases h2 : max x y < z
    · have e2 : max (max x y) z = z := by
        show (if max x y < z then z else max x y) = z
        rw [if_pos h2]
      rw [e2] at h; exact not_max_lt_right x y (lt_tr h2 h)
    · have e2 : max (max x y) z = max x y := by
        show (if max x y < z then z else max x y) = max x y
        rw [if_neg h2]
      rw [e2] at h; exact not_max_lt_right x y h

/-- No argument is below the minimum of three. -/
theorem not_lt_min3 (x y z : Flt) :
    ¬ (x < min (min x y) z) ∧ ¬ (y < min (min x y) z) ∧ ¬ (z < min (min x y) z) := by
  refine ⟨?_, ?_, not_lt_min_right _ _⟩
  · intro h
    by_cases h2 : z < min x y
    · have e2 : min (min x y) z = z := by
        show (if z < min x y then z else min x y) = z
        rw [if_pos h2]
      rw [e2] at h; exact not_lt_min_left x y (lt_tr h h2)
    · have e2 : min (min x y) z = min x y := by
        show (if z < min x y then z else min x y) = min x y
        rw [if_neg h2]
      rw [e2] at h; exact not_lt_min_left x y h
  · intro h
    by_cases h2 : z < min x y
    · have e2 : min (min x y) z = z := by
        show (if z < min x y then z else min x y) = z
        rw [if_pos h2]
      rw [e2] at h; exact not_lt_min_right x y (lt_tr h h2)
    · have e2 : min (min x y) z = min x y := by
        show (if z < min x y then z else min x y) = min x y
        rw [if_neg h2]
      rw [e2] at h; exact not_lt_min_right x y h

theorem max3_eq_or (x y z : Flt) :
    max (max x y) z = x ∨ max (max x y) z = y ∨ max (max x y) z = z := by
  rcases max_eq_or (max x y) z with e | e
  · rcases max_eq_or x y with e2 | e2
    · left; rw [e, e2]
    · right; left; rw [e, e2]
  · right; right; exact e

theorem min3_eq_or (x y z : Flt) :
    min (min x y) z = x ∨ min (min x y) z = y ∨ min (min x y) z = z := by
  rcases min_eq_or (min x y) z with e | e
  · rcases min_eq_or x y with e2 | e2
    · left; rw [e, e2]
    · right; left; rw [e, e2]
  · right; right; exact e

theorem lt_of_lt_of_not_lt {a b c : Flt} (h1 : a < b) (h2 : ¬ (c < b)) (hc : c ≠ nan) :
    a < c := by
  cases a <;> cases b <;> cases c <;> simp_all [lt_def, lt]
  exact lt_of_lt_of_le h1 h2

theorem lt_of_not_lt_of_lt {a b c : Flt} (h1 : ¬ (b < a)) (h2 : b < c) (ha : a ≠ nan) :
    a < c := by
  cases a <;> cases b <;> cases c <;> simp_all [lt_def, lt]
  exact lt_of_le_of_lt h1 h2

theorem feq_self_of_isFinite {a : Flt} (h : a.isFinite = true) : feq a a = true := by
  cases a <;> simp_all [isFinite, feq]

theorem isFinite_of_feq {a b : Flt} (h : feq a b = true) (ha : a.isFinite = true) :
    b.isFinite = true := by
  cases a <;> cases b <;> simp_all [isFinite, feq]

theorem ne_nan_of_isFinite {a : Flt} (h : a.isFinite = true) : a ≠ nan := by
  cases a <;> simp_all [isFinite]

theorem sign_fin (q : ℚ) : sign (fin q) = fin (ratSign q) := by
  unfold sign ratSign
  rw [zero_eq, one_eq]
  by_cases h1 : 0 < q
  · rw [if_pos ((fin_lt_fin 0 q).mpr h1), if_pos h1]
  · by_cases h2 : q < 0
    · rw [if_neg (fun hh => h1 ((fin_lt_fin 0 q).mp hh)), if_pos ((fin_lt_fin q 0).mpr h2),
        if_neg h1, if_pos h2]
      rfl
    · rw [if_neg (fun hh => h1 ((fin_lt_fin 0 q).mp hh)),
        if_neg (fun hh => h2 ((fin_lt_fin q 0).mp hh)), if_neg h1, if_neg h2]

end Flt

theorem ratSign_mul_self_nonneg (q : ℚ) : 0 ≤ ratSign q * q := by
  unfold ratSign
  split_ifs with h1 h2
  · linarith
  · linarith
  · have : q = 0 := le_antisymm (not_lt.mp h1) (not_lt.mp h2)
    rw [this]; norm_num

theorem ratSign_cases (q : ℚ) (hq : q ≠ 0) : ratSign q = 1 ∨ ratSign q = -1 := by
  unfold ratSign
  rcases lt_or_gt_of_ne hq with h | h
  · right
    rw [if_neg (not_lt.mpr (le_of_lt h)), if_pos h]
  · left
    rw [if_pos h]

/-! ## `Cube::rayIntersect` on rational boxes and rays -/

theorem Vec3.sub_def (a b : Vec3) : a - b = ⟨a.x - b.x, a.y - b.y, a.z - b.z⟩ := rfl

theorem Vec3.add_def (a b : Vec3) : a + b = ⟨a.x + b.x, a.y + b.y, a.z + b.z⟩ := rfl

theorem Vec3.mul_def (a b : Vec3) : a * b = ⟨a.x * b.x, a.y * b.y, a.z * b.z⟩ := rfl

theorem half_fin (s : ℚ) : (Flt.fin s / 2 : Flt) = Flt.fin (s / 2) := by
  rw [Flt.two_eq]
  exact Flt.fin_div_fin s 2 (by norm_num)

theorem tMin_ofRat (cx cy cz s ox oy oz dx dy dz : ℚ) :
    (Cube.ofRat cx cy cz s).tMin (Vec3.ofRat ox oy oz) (Vec3.ofRat dx dy dz)
      = ⟨slabMin (Flt.fin (cx - s / 2)) (Flt.fin (cx + s / 2)) (Flt.fin ox) (Flt.fin dx),
          slabMin (Flt.fin (cy - s / 2)) (Flt.fin (cy + s / 2)) (Flt.fin oy) (Flt.fin dy),
          slabMin (Flt.fin (cz - s / 2)) (Flt.fin (cz + s / 2)) (Flt.fin oz) (Flt.fin dz)⟩ := by
  simp only [Cube.tMin, Cube.minBounds, Cube.maxBounds, Cube.ofRat, half_fin, Vec3.splat,
    Vec3.ofRat, Vec3.min, Vec3.rdiv, slabMin, Vec3.sub_def, Vec3.add_def, Vec3.mul_def,
    Flt.fin_sub_fin, Flt.fin_add_fin]

theorem tMax_ofRat (cx cy cz s ox oy oz dx dy dz : ℚ) :
    (Cube.ofRat cx cy cz s).tMax (Vec3.ofRat ox oy oz) (Vec3.ofRat dx dy dz)
      = ⟨slabMax (Flt.fin (cx - s / 2)) (Flt.fin (cx + s / 2)) (Flt.fin ox) (Flt.fin dx),
          slabMax (Flt.fin (cy - s / 2)) (Flt.fin (cy + s / 2)) (Flt.fin oy) (Flt.fin dy),
          slabMax (Flt.fin (cz - s / 2)) (Flt.fin (cz + s / 2)) (Flt.fin oz) (Flt.fin dz)⟩ := by
  simp only [Cube.tMax, Cube.minBounds, Cube.maxBounds, Cube.ofRat, half_fin, Vec3.splat,
    Vec3.ofRat, Vec3.max, Vec3.rdiv, slabMax, Vec3.sub_def, Vec3.add_def, Vec3.mul_def,
    Flt.fin_sub_fin, Flt.fin_add_fin]

/-- The three outcomes of `Cube::rayIntersect`. -/
theorem rayIntersect_cases (c : Cube) (o d : Vec3) :
    ((c.rayIntersect o d).isIntersecting = false ∧
        (c.tEnter o d > c.tExit o d ∨ c.tExit o d < 0)) ∨
      (¬ (c.tEnter o d > c.tExit o d) ∧ ¬ (c.tExit o d < 0) ∧ ¬ (c.tEnter o d < 0) ∧
        c.rayIntersect o d = ⟨true, c.tEnter o d, o + Vec3.smul (c.tEnter o d) d,
          Cube.selectNormal (c.tEnter o d) (c.tMin o d) d⟩) ∨
      (¬ (c.tEnter o d > c.tExit o d) ∧ ¬ (c.tExit o d < 0) ∧ c.tEnter o d < 0 ∧
        c.rayIntersect o d = ⟨true, c.tExit o d, o + Vec3.smul (c.tExit o d) d,
          Cube.selectNormal (c.tExit o d) (c.tMin o d) d⟩) := by
  unfold Cube.rayIntersect
  dsimp only
  by_cases h1 : c.tEnter o d > c.tExit o d ∨ c.tExit o d < 0
  · left; rw [if_pos h1]; exact ⟨rfl, h1⟩
  · rw [if_neg h1]
    have h1a : ¬ (c.tEnter o d > c.tExit o d) := fun h => h1 (Or.inl h)
    have h1b : ¬ (c.tExit o d < 0) := fun h => h1 (Or.inr h)
    by_cases h2 : c.tEnter o d < 0
    · rw [if_pos h2, if_neg h1b]
      right; right
      exact ⟨h1a, h1b, h2, rfl⟩
    · rw [if_neg h2]
      right; left
      exact ⟨h1a, h1b, h2, rfl⟩

/-- The normal selected on an axis along which the ray moves. -/
theorem axis_normal_x (q dy dz : ℚ) (hq : q ≠ 0) :
    Vec3.smul (-Flt.sign (Flt.fin q)) ⟨1, 0, 0⟩ = Vec3.ofRat (-ratSign q) 0 0 ∧
      Vec3.ofRat (-ratSign q) 0 0 ∈ unitAxes ∧
      Vec3.dot (Vec3.ofRat (-ratSign q) 0 0) (Vec3.ofRat q dy dz) ≤ 0 := by
  refine ⟨?_, ?_, ?_⟩
  · simp [Vec3.smul, Vec3.ofRat, Flt.sign_fin]
  · rcases ratSign_cases q hq with h | h <;> rw [h] <;> simp [unitAxes]
  · simp only [Vec3.dot, Vec3.ofRat, Flt.fin_mul_fin, Flt.fin_add_fin, Flt.zero_eq,
      Flt.fin_le_fin]
    have := ratSign_mul_self_nonneg q
    linarith

theorem axis_normal_y (q dx dz : ℚ) (hq : q ≠ 0) :
    Vec3.smul (-Flt.sign (Flt.fin q)) ⟨0, 1, 0⟩ = Vec3.ofRat 0 (-ratSign q) 0 ∧
      Vec3.ofRat 0 (-ratSign q) 0 ∈ unitAxes ∧
      Vec3.dot (Vec3.ofRat 0 (-ratSign q) 0) (Vec3.ofRat dx q dz) ≤ 0 := by
  refine ⟨?_, ?_, ?_⟩
  · simp [Vec3.smul, Vec3.ofRat, Flt.sign_fin]
  · rcases ratSign_cases q hq with h | h <;> rw [h] <;> simp [unitAxes]
  · simp only [Vec3.dot, Vec3.ofRat, Flt.fin_mul_fin, Flt.fin_add_fin, Flt.zero_eq,
      Flt.fin_le_fin]
    have := ratSign_mul_self_nonneg q
    linarith

theorem axis_normal_z (q dx dy : ℚ) (hq : q ≠ 0) :
    Vec3.smul (-Flt.sign (Flt.fin q)) ⟨0, 0, 1⟩ = Vec3.ofRat 0 0 (-ratSign q) ∧
      Vec3.ofRat 0 0 (-ratSign q) ∈ unitAxes ∧
      Vec3.dot (Vec3.ofRat 0 0 (-ratSign q)) (Vec3.ofRat dx dy q) ≤ 0 := by
  refine ⟨?_, ?_, ?_⟩
  · simp [Vec3.smul, Vec3.ofRat, Flt.sign_fin]
  · rcases ratSign_cases q hq with h | h <;> rw [h] <;> simp [unitAxes]
  · simp only [Vec3.dot, Vec3.ofRat, Flt.fin_mul_fin, Flt.fin_add_fin, Flt.zero_eq,
      Flt.fin_le_fin]
    have := ratSign_mul_self_nonneg q
    linarith

/-- The other input that the amendment of C7 excludes: the zero vector as
direction, which `castRay` passes on when `glm::refract` reports total internal
reflection.  From `(-5, -5, -5)`, strictly outside the box, every per-axis
distance is `+inf`; an intersection is reported at distance `+inf` with the
zero vector as normal. -/
theorem rayIntersect_zero_direction :
    strictlyOutside 0 0 0 2 (-5) (-5) (-5) ∧
      ((Cube.ofRat 0 0 0 2).rayIntersect (Vec3.ofRat (-5) (-5) (-5))
        (Vec3.ofRat 0 0 0)).isIntersecting = true ∧
      ((Cube.ofRat 0 0 0 2).rayIntersect (Vec3.ofRat (-5) (-5) (-5))
        (Vec3.ofRat 0 0 0)).dist = Flt.pinf ∧
      ((Cube.ofRat 0 0 0 2).rayIntersect (Vec3.ofRat (-5) (-5) (-5))
        (Vec3.ofRat 0 0 0)).normal = Vec3.ofRat 0 0 0 := by
  refine ⟨?_, by decide!, by decide!, by decide!⟩
  unfold strictlyOutside
  norm_num

/-- Over exact rational arithmetic, which the model computes in and the
`float` code only approximates: for a box of positive size and a ray whose
origin lies strictly outside it, an intersection reported at a finite distance
is at the overall entry distance, that distance is positive, and the normal is
a unit axis vector chosen on the first axis whose entry distance equals it. -/
theorem outside_hit_exact (cx cy cz s ox oy oz dx dy dz : ℚ) (hs : 0 < s)
    (hout : strictlyOutside cx cy cz s ox oy oz)
    (hhit : ((Cube.ofRat cx cy cz s).rayIntersect (Vec3.ofRat ox oy oz)
      (Vec3.ofRat dx dy dz)).isIntersecting = true)
    (hfin : ((Cube.ofRat cx cy cz s).rayIntersect (Vec3.ofRat ox oy oz)
      (Vec3.ofRat dx dy dz)).dist.isFinite = true) :
    ((Cube.ofRat cx cy cz s).rayIntersect (Vec3.ofRat ox oy oz) (Vec3.ofRat dx dy dz)).dist
        = (Cube.ofRat cx cy cz s).tEnter (Vec3.ofRat ox oy oz) (Vec3.ofRat dx dy dz) ∧
      (0 : Flt) < ((Cube.ofRat cx cy cz s).rayIntersect (Vec3.ofRat ox oy oz)
        (Vec3.ofRat dx dy dz)).dist ∧
      ((Cube.ofRat cx cy cz s).rayIntersect (Vec3.ofRat ox oy oz)
        (Vec3.ofRat dx dy dz)).normal ∈ unitAxes ∧
      ((Flt.feq ((Cube.ofRat cx cy cz s).tEnter (Vec3.ofRat ox oy oz) (Vec3.ofRat dx dy dz))
            ((Cube.ofRat cx cy cz s).tMin (Vec3.ofRat ox oy oz) (Vec3.ofRat dx dy dz)).x = true ∧
          dx ≠ 0 ∧
          ((Cube.ofRat cx cy cz s).rayIntersect (Vec3.ofRat ox oy oz)
            (Vec3.ofRat dx dy dz)).normal = Vec3.ofRat (-ratSign dx) 0 0) ∨
        (Flt.feq ((Cube.ofRat cx cy cz s).tEnter (Vec3.ofRat ox oy oz) (Vec3.ofRat dx dy dz))
            ((Cube.ofRat cx cy cz s).tMin (Vec3.ofRat ox oy oz) (Vec3.ofRat dx dy dz)).x = false ∧
          Flt.feq ((Cube.ofRat cx cy cz s).tEnter (Vec3.ofRat ox oy oz) (Vec3.ofRat dx dy dz))
            ((Cube.ofRat cx cy cz s).tMin (Vec3.ofRat ox oy oz) (Vec3.ofRat dx dy dz)).y = true ∧
          dy ≠ 0 ∧
          ((Cube.ofRat cx cy cz s).rayIntersect (Vec3.ofRat ox oy oz)
            (Vec3.ofRat dx dy dz)).normal = Vec3.ofRat 0 (-ratSign dy) 0) ∨
        (Flt.feq ((Cube.ofRat cx cy cz s).tEnter (Vec3.ofRat ox oy oz) (Vec3.ofRat dx dy dz))
            ((Cube.ofRat cx cy cz s).tMin (Vec3.ofRat ox oy oz) (Vec3.ofRat dx dy dz)).x = false ∧
          Flt.feq ((Cube.ofRat cx cy cz s).tEnter (Vec3.ofRat ox oy oz) (Vec3.ofRat dx dy dz))
            ((Cube.ofRat cx cy cz s).tMin (Vec3.ofRat ox oy oz) (Vec3.ofRat dx dy dz)).y = false ∧
          Flt.feq ((Cube.ofRat cx cy cz s).tEnter (Vec3.ofRat ox oy oz) (Vec3.ofRat dx dy dz))
            ((Cube.ofRat cx cy cz s).tMin (Vec3.ofRat ox oy oz) (Vec3.ofRat dx dy dz)).z = true ∧
          dz ≠ 0 ∧
          ((Cube.ofRat cx cy cz s).rayIntersect (Vec3.ofRat ox oy oz)
            (Vec3.ofRat dx dy dz)).normal = Vec3.ofRat 0 0 (-ratSign dz))) ∧
      Vec3.dot ((Cube.ofRat cx cy cz s).rayIntersect (Vec3.ofRat ox oy oz)
        (Vec3.ofRat dx dy dz)).normal (Vec3.ofRat dx dy dz) ≤ 0 := by
  -- the slabs of the three axes
  have hlo : ∀ c : ℚ, c - s / 2 < c + s / 2 := fun c => by linarith
  obtain ⟨ax1, ax2, ax3⟩ := slab_facts (cx - s / 2) (cx + s / 2) ox dx (hlo cx)
  obtain ⟨ay1, ay2, ay3⟩ := slab_facts (cy - s / 2) (cy + s / 2) oy dy (hlo cy)
  obtain ⟨az1, az2, az3⟩ := slab_facts (cz - s / 2) (cz + s / 2) oz dz (hlo cz)
  have hm := tMin_ofRat cx cy cz s ox oy oz dx dy dz
  have hM := tMax_ofRat cx cy cz s ox oy oz dx dy dz
  generalize hc : Cube.ofRat cx cy cz s = c at *
  generalize ho : Vec3.ofRat ox oy oz = o at *
  have hte : c.tEnter o (Vec3.ofRat dx dy dz)
      = Flt.max (Flt.max (c.tMin o (Vec3.ofRat dx dy dz)).x (c.tMin o (Vec3.ofRat dx dy dz)).y)
          (c.tMin o (Vec3.ofRat dx dy dz)).z := rfl
  have htx : c.tExit o (Vec3.ofRat dx dy dz)
      = Flt.min (Flt.min (c.tMax o (Vec3.ofRat dx dy dz)).x (c.tMax o (Vec3.ofRat dx dy dz)).y)
          (c.tMax o (Vec3.ofRat dx dy dz)).z := rfl
  generalize hmv : c.tMin o (Vec3.ofRat dx dy dz) = m at *
  generalize hMv : c.tMax o (Vec3.ofRat dx dy dz) = M at *
  generalize htev : c.tEnter o (Vec3.ofRat dx dy dz) = te at *
  generalize htxv : c.tExit o (Vec3.ofRat dx dy dz) = tx at *
  have hmx : m.x = slabMin (Flt.fin (cx - s / 2)) (Flt.fin (cx + s / 2)) (Flt.fin ox)
      (Flt.fin dx) := by rw [hm]
  have hmy : m.y = slabMin (Flt.fin (cy - s / 2)) (Flt.fin (cy + s / 2)) (Flt.fin oy)
      (Flt.fin dy) := by rw [hm]
  have hmz : m.z = slabMin (Flt.fin (cz - s / 2)) (Flt.fin (cz + s / 2)) (Flt.fin oz)
      (Flt.fin dz) := by rw [hm]
  have hMx : M.x = slabMax (Flt.fin (cx - s / 2)) (Flt.fin (cx + s / 2)) (Flt.fin ox)
      (Flt.fin dx) := by rw [hM]
  have hMy : M.y = slabMax (Flt.fin (cy - s / 2)) (Flt.fin (cy + s / 2)) (Flt.fin oy)
      (Flt.fin dy) := by rw [hM]
  have hMz : M.z = slabMax (Flt.fin (cz - s / 2)) (Flt.fin (cz + s / 2)) (Flt.fin oz)
      (Flt.fin dz) := by rw [hM]
  rw [← hmx] at ax1 ax2 ax3
  rw [← hMx] at ax1 ax3
  rw [← hmy] at ay1 ay2 ay3
  rw [← hMy] at ay1 ay3
  rw [← hmz] at az1 az2 az3
  rw [← hMz] at az1 az3
  clear hm hM hmx hmy hmz hMx hMy hMz
  -- the entry distance is positive as soon as it is a number
  have hpos : te ≠ Flt.nan → ¬ (tx < 0) → (0 : Flt) < te := by
    intro hten htx0
    have hmxn : m.x ≠ Flt.nan := by
      intro hh
      rw [hh, Flt.max_nan_left, Flt.max_nan_left] at hte
      exact hten hte
    have htxn : tx ≠ Flt.nan := by
      rw [htx]
      exact Flt.min_ne_nan _ (Flt.min_ne_nan _ (ax1 hmxn))
    obtain ⟨l1, l2, l3⟩ := Flt.not_max3_lt m.x m.y m.z
    obtain ⟨u1, u2, u3⟩ := Flt.not_lt_min3 M.x M.y M.z
    rw [← hte] at l1 l2 l3
    rw [← htx] at u1 u2 u3
    rcases hout with h | h | h
    · obtain ⟨_, hsep⟩ := ax3 h
      rcases hsep with hsep | hsep
      · exact Flt.lt_of_lt_of_not_lt hsep l1 hten
      · exact absurd (Flt.lt_of_not_lt_of_lt u1 hsep htxn) htx0
    · obtain ⟨_, hsep⟩ := ay3 h
      rcases hsep with hsep | hsep
      · exact Flt.lt_of_lt_of_not_lt hsep l2 hten
      · exact absurd (Flt.lt_of_not_lt_of_lt u2 hsep htxn) htx0
    · obtain ⟨_, hsep⟩ := az3 h
      rcases hsep with hsep | hsep
      · exact Flt.lt_of_lt_of_not_lt hsep l3 hten
      · exact absurd (Flt.lt_of_not_lt_of_lt u3 hsep htxn) htx0
  rcases rayIntersect_cases c o (Vec3.ofRat dx dy dz) with h | ⟨_, h2, h3, hr⟩ | ⟨_, h2, h3, _⟩
  · rw [h.1] at hhit; exact Bool.noConfusion hhit
  · rw [hmv, htev] at hr
    rw [htxv] at h2
    rw [hr] at hfin ⊢
    dsimp only at hfin ⊢
    have hp := hpos (Flt.ne_nan_of_isFinite hfin) h2
    have hself := Flt.feq_self_of_isFinite hfin
    refine ⟨rfl, hp, ?_⟩
    unfold Cube.selectNormal
    dsimp only [Vec3.ofRat]
    by_cases f1 : Flt.feq te m.x = true
    · have hd : dx ≠ 0 := ax2 (Flt.isFinite_of_feq f1 hfin)
      obtain ⟨e1, e2, e3⟩ := axis_normal_x dx dy dz hd
      rw [if_pos f1, e1]
      exact ⟨e2, Or.inl ⟨f1, hd, rfl⟩, e3⟩
    · simp only [Bool.not_eq_true] at f1
      by_cases f2 : Flt.feq te m.y = true
      · have hd : dy ≠ 0 := ay2 (Flt.isFinite_of_feq f2 hfin)
        obtain ⟨e1, e2, e3⟩ := axis_normal_y dy dx dz hd
        rw [if_neg (by rw [f1]; exact Bool.false_ne_true), if_pos f2, e1]
        exact ⟨e2, Or.inr (Or.inl ⟨f1, f2, hd, rfl⟩), e3⟩
      · simp only [Bool.not_eq_true] at f2
        have f3 : Flt.feq te m.z = true := by
          rcases Flt.max3_eq_or m.x m.y m.z with e | e | e
          · rw [← hte] at e; rw [← e, hself] at f1; exact Bool.noConfusion f1
          · rw [← hte] at e; rw [← e, hself] at f2; exact Bool.noConfusion f2
          · rw [← hte] at e; rw [← e]; exact hself
        have hd : dz ≠ 0 := az2 (Flt.isFinite_of_feq f3 hfin)
        obtain ⟨e1, e2, e3⟩ := axis_normal_z dz dx dy hd
        rw [if_neg (by rw [f1]; exact Bool.false_ne_true),
          if_neg (by rw [f2]; exact Bool.false_ne_true), if_pos f3, e1]
        exact ⟨e2, Or.inr (Or.inr ⟨f1, f2, f3, hd, rfl⟩), e3⟩
  · rw [htev] at h3
    rw [htxv] at h2
    exact absurd (Flt.lt_tr (hpos (Flt.lt_ne_nan_left h3) h2) h3) (Flt.lt_irr _)

/-- Along one axis the ray is inside the slab exactly between the entry and
exit distances of that axis. -/
theorem axis_iff (lo hi o d t : ℚ) (h : lo ≤ hi) (hd : d ≠ 0) :
    (lo ≤ o + t * d ∧ o + t * d ≤ hi) ↔
      (min ((lo - o) * (1 / d)) ((hi - o) * (1 / d)) ≤ t ∧
        t ≤ max ((lo - o) * (1 / d)) ((hi - o) * (1 / d))) := by
  have hk : d * (1 / d) = 1 := by field_simp
  have e1 : ∀ a : ℚ, a * (1 / d) * d = a := fun a => by field_simp
  have e2 : ∀ a : ℚ, a * d * (1 / d) = a := fun a => by field_simp
  rcases lt_or_gt_of_ne hd with hneg | hpos
  · have hk0 : 1 / d < 0 := one_div_neg.mpr hneg
    have hq : (hi - o) * (1 / d) ≤ (lo - o) * (1 / d) :=
      mul_le_mul_of_nonpos_right (by linarith) (le_of_lt hk0)
    rw [min_eq_right hq, max_eq_left hq]
    constructor
    · rintro ⟨h1, h2⟩
      constructor
      · have := mul_le_mul_of_nonpos_right (show t * d ≤ hi - o by linarith) (le_of_lt hk0)
        rw [e2] at this; exact this
      · have := mul_le_mul_of_nonpos_right (show lo - o ≤ t * d by linarith) (le_of_lt hk0)
        rw [e2] at this; exact this
    · rintro ⟨h1, h2⟩
      constructor
      · have := mul_le_mul_of_nonpos_right h2 (le_of_lt hneg)
        rw [e1] at this; linarith
      · have := mul_le_mul_of_nonpos_right h1 (le_of_lt hneg)
        rw [e1] at this; linarith
  · have hk0 : 0 < 1 / d := one_div_pos.mpr hpos
    have hq : (lo - o) * (1 / d) ≤ (hi - o) * (1 / d) :=
      mul_le_mul_of_nonneg_right (by linarith) (le_of_lt hk0)
    rw [min_eq_left hq, max_eq_right hq]
    constructor
    · rintro ⟨h1, h2⟩
      constructor
      · have := mul_le_mul_of_nonneg_right (show lo - o ≤ t * d by linarith) (le_of_lt hk0)
        rw [e2] at this; exact this
      · have := mul_le_mul_of_nonneg_right (show t * d ≤ hi - o by linarith) (le_of_lt hk0)
        rw [e2] at this; exact this
    · rintro ⟨h1, h2⟩
      constructor
      · have := mul_le_mul_of_nonneg_right h1 (le_of_lt hpos)
        rw [e1] at this; linarith
      · have := mul_le_mul_of_nonneg_right h2 (le_of_lt hpos)
        rw [e1] at this; linarith

/-- At the entry distance of an axis, and at its exit distance, the ray is on
one of the two face planes of that axis. -/
theorem axis_face (lo hi o d : ℚ) (hd : d ≠ 0) :
    (o + min ((lo - o) * (1 / d)) ((hi - o) * (1 / d)) * d = lo ∨
        o + min ((lo - o) * (1 / d)) ((hi - o) * (1 / d)) * d = hi) ∧
      (o + max ((lo - o) * (1 / d)) ((hi - o) * (1 / d)) * d = lo ∨
        o + max ((lo - o) * (1 / d)) ((hi - o) * (1 / d)) * d = hi) := by
  have e1 : ∀ a : ℚ, a * (1 / d) * d = a := fun a => by field_simp
  constructor
  · rcases min_choice ((lo - o) * (1 / d)) ((hi - o) * (1 / d)) with e | e
    · left; rw [e, e1]; ring
    · right; rw [e, e1]; ring
  · rcases max_choice ((lo - o) * (1 / d)) ((hi - o) * (1 / d)) with e | e
    · left; rw [e, e1]; ring
    · right; rw [e, e1]; ring

theorem tEnter_fin (cx cy cz s ox oy oz dx dy dz : ℚ) (hdx : dx ≠ 0) (hdy : dy ≠ 0)
    (hdz : dz ≠ 0) :
    (Cube.ofRat cx cy cz s).tEnter (Vec3.ofRat ox oy oz) (Vec3.ofRat dx dy dz)
      = Flt.fin (max (max
          (min ((cx - s / 2 - ox) * (1 / dx)) ((cx + s / 2 - ox) * (1 / dx)))
          (min ((cy - s / 2 - oy) * (1 / dy)) ((cy + s / 2 - oy) * (1 / dy))))
          (min ((cz - s / 2 - oz) * (1 / dz)) ((cz + s / 2 - oz) * (1 / dz)))) := by
  unfold Cube.tEnter
  rw [tMin_ofRat]
  dsimp only
  rw [slabMin_fin _ _ _ _ hdx, slabMin_fin _ _ _ _ hdy, slabMin_fin _ _ _ _ hdz,
    Flt.max_fin_fin, Flt.max_fin_fin]

theorem tExit_fin (cx cy cz s ox oy oz dx dy dz : ℚ) (hdx : dx ≠ 0) (hdy : dy ≠ 0)
    (hdz : dz ≠ 0) :
    (Cube.ofRat cx cy cz s).tExit (Vec3.ofRat ox oy oz) (Vec3.ofRat dx dy dz)
      = Flt.fin (min (min
          (max ((cx - s / 2 - ox) * (1 / dx)) ((cx + s / 2 - ox) * (1 / dx)))
          (max ((cy - s / 2 - oy) * (1 / dy)) ((cy + s / 2 - oy) * (1 / dy))))
          (max ((cz - s / 2 - oz) * (1 / dz)) ((cz + s / 2 - oz) * (1 / dz)))) := by
  unfold Cube.tExit
  rw [tMax_ofRat]
  dsimp only
  rw [slabMax_fin _ _ _ _ hdx, slabMax_fin _ _ _ _ hdy, slabMax_fin _ _ _ _ hdz,
    Flt.min_fin_fin, Flt.min_fin_fin]

theorem point_ofRat (ox oy oz dx dy dz t : ℚ) :
    Vec3.ofRat ox oy oz + Vec3.smul (Flt.fin t) (Vec3.ofRat dx dy dz)
      = Vec3.ofRat (ox + t * dx) (oy + t * dy) (oz + t * dz) := by
  simp only [Vec3.add_def, Vec3.smul, Vec3.ofRat, Flt.fin_mul_fin, Flt.fin_add_fin]

/-- C10: over exact arithmetic, for every box with size ≥ 0 and every ray
whose direction has all three components nonzero, `Cube::rayIntersect` reports
an intersection if and only if there is `t ≥ 0` with `origin + t·direction` in
the closed box; and when it reports one, the reported distance is such a `t`,
the reported hit point is `origin + dist·direction`, and it lies on the
boundary of the box. -/
theorem rayIntersect_iff_meets_box (cx cy cz s ox oy oz dx dy dz : ℚ) (hs : 0 ≤ s)
    (hdx : dx ≠ 0) (hdy : dy ≠ 0) (hdz : dz ≠ 0) :
    (((Cube.ofRat cx cy cz s).rayIntersect (Vec3.ofRat ox oy oz)
          (Vec3.ofRat dx dy dz)).isIntersecting = true ↔
        ∃ t : ℚ, 0 ≤ t ∧ inBox cx cy cz s (ox + t * dx) (oy + t * dy) (oz + t * dz)) ∧
      (((Cube.ofRat cx cy cz s).rayIntersect (Vec3.ofRat ox oy oz)
          (Vec3.ofRat dx dy dz)).isIntersecting = true →
        ∃ t : ℚ, 0 ≤ t ∧
          ((Cube.ofRat cx cy cz s).rayIntersect (Vec3.ofRat ox oy oz)
            (Vec3.ofRat dx dy dz)).dist = Flt.fin t ∧
          ((Cube.ofRat cx cy cz s).rayIntersect (Vec3.ofRat ox oy oz)
            (Vec3.ofRat dx dy dz)).point
            = Vec3.ofRat (ox + t * dx) (oy + t * dy) (oz + t * dz) ∧
          onBoundary cx cy cz s (ox + t * dx) (oy + t * dy) (oz + t * dz)) := by
  have hlo : ∀ c : ℚ, c - s / 2 ≤ c + s / 2 := fun c => by linarith
  have hte := tEnter_fin cx cy cz s ox oy oz dx dy dz hdx hdy hdz
  have htx := tExit_fin cx cy cz s ox oy oz dx dy dz hdx hdy hdz
  obtain ⟨fx1, fx2⟩ := axis_face (cx - s / 2) (cx + s / 2) ox dx hdx
  obtain ⟨fy1, fy2⟩ := axis_face (cy - s / 2) (cy + s / 2) oy dy hdy
  obtain ⟨fz1, fz2⟩ := axis_face (cz - s / 2) (cz + s / 2) oz dz hdz
  have hin : ∀ t : ℚ, inBox cx cy cz s (ox + t * dx) (oy + t * dy) (oz + t * dz) ↔
      (max (max
          (min ((cx - s / 2 - ox) * (1 / dx)) ((cx + s / 2 - ox) * (1 / dx)))
          (min ((cy - s / 2 - oy) * (1 / dy)) ((cy + s / 2 - oy) * (1 / dy))))
          (min ((cz - s / 2 - oz) * (1 / dz)) ((cz + s / 2 - oz) * (1 / dz))) ≤ t ∧
        t ≤ min (min
          (max ((cx - s / 2 - ox) * (1 / dx)) ((cx + s / 2 - ox) * (1 / dx)))
          (max ((cy - s / 2 - oy) * (1 / dy)) ((cy + s / 2 - oy) * (1 / dy))))
          (max ((cz - s / 2 - oz) * (1 / dz)) ((cz + s / 2 - oz) * (1 / dz)))) := by
    intro t
    unfold inBox
    rw [axis_iff _ _ ox dx t (hlo cx) hdx, axis_iff _ _ oy dy t (hlo cy) hdy,
      axis_iff _ _ oz dz t (hlo cz) hdz, max_le_iff, max_le_iff, le_min_iff, le_min_iff]
    constructor
    · rintro ⟨⟨a1, b1⟩, ⟨a2, b2⟩, ⟨a3, b3⟩⟩
      exact ⟨⟨⟨a1, a2⟩, a3⟩, ⟨⟨b1, b2⟩, b3⟩⟩
    · rintro ⟨⟨⟨a1, a2⟩, a3⟩, ⟨⟨b1, b2⟩, b3⟩⟩
      exact ⟨⟨a1, b1⟩, ⟨a2, b2⟩, ⟨a3, b3⟩⟩
  generalize hmx : min ((cx - s / 2 - ox) * (1 / dx)) ((cx + s / 2 - ox) * (1 / dx)) = mx at *
  generalize hmy : min ((cy - s / 2 - oy) * (1 / dy)) ((cy + s / 2 - oy) * (1 / dy)) = my at *
  generalize hmz : min ((cz - s / 2 - oz) * (1 / dz)) ((cz + s / 2 - oz) * (1 / dz)) = mz at *
  generalize hMx : max ((cx - s / 2 - ox) * (1 / dx)) ((cx + s / 2 - ox) * (1 / dx)) = Mx at *
  generalize hMy : max ((cy - s / 2 - oy) * (1 / dy)) ((cy + s / 2 - oy) * (1 / dy)) = My at *
  generalize hMz : max ((cz - s / 2 - oz) * (1 / dz)) ((cz + s / 2 - oz) * (1 / dz)) = Mz at *
  have hface_te : ∀ t : ℚ, t = max (max mx my) mz →
      (ox + t * dx = cx - s / 2 ∨ ox + t * dx = cx + s / 2 ∨ oy + t * dy = cy - s / 2 ∨
        oy + t * dy = cy + s / 2 ∨ oz + t * dz = cz - s / 2 ∨ oz + t * dz = cz + s / 2) := by
    intro t ht
    rcases max_choice (max mx my) mz with e | e
    · rcases max_choice mx my with e2 | e2
      · rw [ht, e, e2]
        rcases fx1 with f | f
        · exact Or.inl f
        · exact Or.inr (Or.inl f)
      · rw [ht, e, e2]
        rcases fy1 with f | f
        · exact Or.inr (Or.inr (Or.inl f))
        · exact Or.inr (Or.inr (Or.inr (Or.inl f)))
    · rw [ht, e]
      rcases fz1 with f | f
      · exact Or.inr (Or.inr (Or.inr (Or.inr (Or.inl f))))
      · exact Or.inr (Or.inr (Or.inr (Or.inr (Or.inr f))))
  have hface_tx : ∀ t : ℚ, t = min (min Mx My) Mz →
      (ox + t * dx = cx - s / 2 ∨ ox + t * dx = cx + s / 2 ∨ oy + t * dy = cy - s / 2 ∨
        oy + t * dy = cy + s / 2 ∨ oz + t * dz = cz - s / 2 ∨ oz + t * dz = cz + s / 2) := by
    intro t ht
    rcases min_choice (min Mx My) Mz with e | e
    · rcases min_choice Mx My with e2 | e2
      · rw [ht, e, e2]
        rcases fx2 with f | f
        · exact Or.inl f
        · exact Or.inr (Or.inl f)
      · rw [ht, e, e2]
        rcases fy2 with f | f
        · exact Or.inr (Or.inr (Or.inl f))
        · exact Or.inr (Or.inr (Or.inr (Or.inl f)))
    · rw [ht, e]
      rcases fz2 with f | f
      · exact Or.inr (Or.inr (Or.inr (Or.inr (Or.inl f))))
      · exact Or.inr (Or.inr (Or.inr (Or.inr (Or.inr f))))
  rcases rayIntersect_cases (Cube.ofRat cx cy cz s) (Vec3.ofRat ox oy oz)
    (Vec3.ofRat dx dy dz) with h | ⟨h1, h2, h3, hr⟩ | ⟨h1, h2, h3, hr⟩
  · -- no hit: one of the rejection tests fired
    obtain ⟨hfalse, hrej⟩ := h
    rw [hte, htx, gt_iff_lt, Flt.fin_lt_fin, Flt.zero_eq, Flt.fin_lt_fin] at hrej
    rw [hfalse]
    refine ⟨⟨fun hh => Bool.noConfusion hh, ?_⟩, fun hh => Bool.noConfusion hh⟩
    rintro ⟨t, ht0, hbox⟩
    obtain ⟨b1, b2⟩ := (hin t).mp hbox
    rcases hrej with hrej | hrej <;> linarith
  · rw [hte, htx] at h1
    rw [htx] at h2
    rw [hte] at h3 hr
    rw [gt_iff_lt, Flt.fin_lt_fin] at h1
    rw [Flt.zero_eq, Flt.fin_lt_fin] at h2 h3
    rw [hr]
    dsimp only
    have hbox : inBox cx cy cz s (ox + max (max mx my) mz * dx) (oy + max (max mx my) mz * dy)
        (oz + max (max mx my) mz * dz) := (hin _).mpr ⟨le_refl _, not_lt.mp h1⟩
    refine ⟨⟨fun _ => ⟨_, not_lt.mp h3, hbox⟩, fun _ => rfl⟩, fun _ => ?_⟩
    exact ⟨_, not_lt.mp h3, rfl, point_ofRat _ _ _ _ _ _ _, hbox, hface_te _ rfl⟩
  · rw [hte, htx] at h1
    rw [htx] at h2 hr
    rw [gt_iff_lt, Flt.fin_lt_fin] at h1
    rw [Flt.zero_eq, Flt.fin_lt_fin] at h2
    rw [hr]
    dsimp only
    have hbox : inBox cx cy cz s (ox + min (min Mx My) Mz * dx) (oy + min (min Mx My) Mz * dy)
        (oz + min (min Mx My) Mz * dz) := (hin _).mpr ⟨not_lt.mp h1, le_refl _⟩
    refine ⟨⟨fun _ => ⟨_, not_lt.mp h2, hbox⟩, fun _ => rfl⟩, fun _ => ?_⟩
    exact ⟨_, not_lt.mp h2, rfl, point_ofRat _ _ _ _ _ _ _, hbox, hface_tx _ rfl⟩

theorem rayIntersect_iff_meets_box_witness :
    ((0 : ℚ) ≤ 2 ∧ (1 : ℚ) ≠ 0) ∧
      (((Cube.ofRat 0 0 0 2).rayIntersect (Vec3.ofRat (-5) (-4) (-3))
          (Vec3.ofRat 1 1 1)).isIntersecting = true ↔
        ∃ t : ℚ, 0 ≤ t ∧ inBox 0 0 0 2 (-5 + t * 1) (-4 + t * 1) (-3 + t * 1)) ∧
      (Cube.ofRat 0 0 0 2).rayIntersect (Vec3.ofRat (-5) (-4) (-3)) (Vec3.ofRat 1 1 1)
        = ⟨true, Flt.fin 4, Vec3.ofRat (-1) 0 1, Vec3.ofRat (-1) 0 0⟩ :=
  ⟨⟨by norm_num, by norm_num⟩,
    (rayIntersect_iff_meets_box 0 0 0 2 (-5) (-4) (-3) 1 1 1 (by norm_num) (by norm_num)
      (by norm_num) (by norm_num)).1,
    by decide!⟩

end Raytracer
